import Mathlib

/-!
Verification of the MoneyLog statement-ingestion pipeline.

This file gives a shallow embedding, in Lean 4, of the core of the
MoneyLog expense tracker: the CSV statement parser
(`src/lib/parser/csv-parser.ts`), the two PDF statement parser variants
(`src/lib/parser/kbank-parser.ts` using pdf-parse, and the pdfjs-dist
variant), the fingerprint / date utilities (`src/lib/utils.ts`) and the
rule-based categorization engine (`src/lib/categorization.ts`), together
with theorems settling the specification's claims about them.

Modelling conventions:
* JavaScript strings are modelled as `List Char` (`Str`).  All string
  operations used by the source (`toLowerCase`, `toUpperCase`, `trim`,
  `split`, `includes`, `startsWith`, `endsWith`, regex scans) are
  hand-translated to executable functions on `Str`; case mapping is
  modelled on the ASCII letters (the only letters the source's patterns
  and constants case-fold) and is the identity elsewhere (in particular on
  the Thai block, as in JavaScript).
* JavaScript numbers holding monetary amounts are modelled as exact
  rationals (`ℚ`); `parseFloat` / `parseInt` are modelled by executable
  decimal parsers with JavaScript's leading-token semantics.  `NaN`
  results are modelled by `Option`.
* `Date` values are modelled by the constructor arguments
  (year, 0-based month, day, hour, minute, second); `getTime` computes
  the JavaScript time value (milliseconds since the epoch, with
  out-of-range components normalized arithmetically exactly as
  JavaScript's `MakeDay`/`MakeTime` do, local time = UTC) and
  `toISOString` renders the normalized components.
* The SHA-256 hash used by `generateTransactionFingerprint` is
  implemented concretely (bytes via UTF-8), so fingerprints are computed,
  not abstracted.
* The external JavaScript regular-expression compiler used by REGEX
  category rules is an explicit parameter `compile`; a pattern on which
  it fails to compile is `none` (the source's `try { new RegExp } catch`).
* Database snapshots (rules, categories) are explicit lists; the Prisma
  query `orderBy: { priority: 'desc' }` is reflected by a sortedness
  hypothesis where a claim needs it.
-/

/-- Strings of the JavaScript source are modelled as lists of characters. -/
abbrev Str := List Char

/-- Coerce a Lean string literal to the `Str` model. -/
def str (s : String) : Str := s.toList

/-- JavaScript whitespace class `\\s`: space, tab, LF, VT, FF, CR, NBSP,
Ogham space mark, the Unicode space separators U+2000..U+200A, line and
paragraph separators, narrow NBSP, medium mathematical space, ideographic
space and the BOM. -/
def isJsWs (c : Char) : Bool :=
  let n := c.toNat
  n == 0x20 || n == 0x09 || n == 0x0a || n == 0x0b || n == 0x0c || n == 0x0d ||
  n == 0xa0 || n == 0x1680 || (0x2000 ≤ n && n ≤ 0x200a) ||
  n == 0x2028 || n == 0x2029 || n == 0x202f || n == 0x205f || n == 0x3000 ||
  n == 0xfeff

/-- Character is an ASCII decimal digit (JavaScript regex `\d`). -/
def isDigitCh (c : Char) : Bool := '0' ≤ c && c ≤ '9'

/-- Numeric value of an ASCII digit. -/
def digitVal (c : Char) : Nat := c.toNat - '0'.toNat

/-- JavaScript `toLowerCase`, restricted to ASCII letters (identity on
all other characters, in particular the Thai block). -/
def lowerCh (c : Char) : Char :=
  if 65 ≤ c.toNat && c.toNat ≤ 90 then Char.ofNat (c.toNat + 32) else c

/-- JavaScript `toUpperCase`, restricted to ASCII letters. -/
def upperCh (c : Char) : Char :=
  if 97 ≤ c.toNat && c.toNat ≤ 122 then Char.ofNat (c.toNat - 32) else c

/-- Lowercase a modelled string. -/
def jsLower (s : Str) : Str := s.map lowerCh

/-- Uppercase a modelled string. -/
def jsUpper (s : Str) : Str := s.map upperCh

/-- JavaScript `String.prototype.trim` (strip leading and trailing `\s`). -/
def jsTrim (s : Str) : Str :=
  ((s.dropWhile isJsWs).reverse.dropWhile isJsWs).reverse

/-- Does `pat` occur at the very start of `s`?  (JavaScript `startsWith`.) -/
def startsWithL (s pat : Str) : Bool :=
  match pat, s with
  | [], _ => true
  | _ :: _, [] => false
  | p :: ps, c :: cs => p == c && startsWithL cs ps

/-- Does `pat` occur at the very end of `s`?  (JavaScript `endsWith`.) -/
def endsWithL (s pat : Str) : Bool := startsWithL s.reverse pat.reverse

/-- Does `pat` occur anywhere in `s`?  (JavaScript `includes`.) -/
def includesL (s pat : Str) : Bool :=
  match s with
  | [] => startsWithL [] pat
  | _ :: cs => startsWithL s pat || includesL cs pat

/-- Occurrence of a prefix is equivalent to a list split. -/
theorem startsWithL_iff (s pat : Str) :
    startsWithL s pat = true ↔ ∃ r, s = pat ++ r := by
  induction pat generalizing s with
  | nil => simp [startsWithL]
  | cons p ps ih =>
    cases s with
    | nil => simp [startsWithL]
    | cons c cs =>
      simp only [startsWithL, Bool.and_eq_true, beq_iff_eq, ih, List.cons_append,
        List.cons.injEq]
      constructor
      · rintro ⟨rfl, r, rfl⟩; exact ⟨r, rfl, rfl⟩
      · rintro ⟨r, rfl, rfl⟩; exact ⟨rfl, r, rfl⟩

/-- Occurrence of a substring is equivalent to a two-sided list split. -/
theorem includesL_iff (s pat : Str) :
    includesL s pat = true ↔ ∃ l r, s = l ++ pat ++ r := by
  induction s with
  | nil =>
    simp only [includesL, startsWithL_iff]
    constructor
    · rintro ⟨r, h⟩; exact ⟨[], r, by simpa using h⟩
    · rintro ⟨l, r, h⟩
      rcases List.append_eq_nil.mp (List.append_eq_nil.mp h.symm).1 with ⟨h1, h2⟩
      exact ⟨r, by simp [h2, (List.append_eq_nil.mp h.symm).2]⟩
  | cons c cs ih =>
    simp only [includesL, Bool.or_eq_true, startsWithL_iff, ih]
    constructor
    · rintro (⟨r, h⟩ | ⟨l, r, h⟩)
      · exact ⟨[], r, by simpa using h⟩
      · exact ⟨c :: l, r, by simp [h]⟩
    · rintro ⟨l, r, h⟩
      cases l with
      | nil => exact Or.inl ⟨r, by simpa using h⟩
      | cons x xs =>
        simp only [List.cons_append, List.cons.injEq] at h
        exact Or.inr ⟨xs, r, h.2⟩

/-- Containment transfers along an enclosing split. -/
theorem includesL_of_middle {mid pat : Str} (a b : Str)
    (h : includesL mid pat = true) : includesL (a ++ mid ++ b) pat = true := by
  rcases (includesL_iff mid pat).mp h with ⟨l, r, rfl⟩
  exact (includesL_iff _ pat).mpr ⟨a ++ l, r ++ b, by simp⟩

/-- Splitting off the trimmed core of a string. -/
theorem jsTrim_split (s : Str) : ∃ a b, s = a ++ jsTrim s ++ b := by
  refine ⟨s.takeWhile isJsWs,
    ((s.dropWhile isJsWs).reverse.takeWhile isJsWs).reverse, ?_⟩
  conv_lhs => rw [← List.takeWhile_append_dropWhile isJsWs s]
  unfold jsTrim
  rw [List.append_assoc]
  congr 1
  conv_lhs => rw [← List.reverse_reverse (s.dropWhile isJsWs),
    ← List.takeWhile_append_dropWhile isJsWs (s.dropWhile isJsWs).reverse]
  rw [List.reverse_append]

/-- Containment in a trimmed truncation transfers to the full string
(after a character map). -/
theorem includesL_map_of_trim_take {pat : Str} (f : Char → Char) (n : Nat)
    (s : Str) (h : includesL ((jsTrim (s.take n)).map f) pat = true) :
    includesL (s.map f) pat = true := by
  rcases jsTrim_split (s.take n) with ⟨a, b, hs⟩
  have hmap : s.map f =
      (a.map f) ++ (jsTrim (s.take n)).map f ++ ((b ++ s.drop n).map f) := by
    conv_lhs => rw [← List.take_append_drop n s, hs]
    simp
  rw [hmap]
  exact includesL_of_middle _ _ h

/-- JavaScript `parseInt` on a string: skip leading whitespace, optional
sign, then the maximal run of decimal digits; `none` models `NaN`. -/
def parseIntJS (s : Str) : Option Int :=
  let t := s.dropWhile isJsWs
  let (neg, t) :=
    match t with
    | '-' :: rest => (true, rest)
    | '+' :: rest => (false, rest)
    | _ => (false, t)
  let ds := t.takeWhile isDigitCh
  if ds.isEmpty then none
  else
    let v : Nat := ds.foldl (fun acc c => acc * 10 + digitVal c) 0
    some (if neg then -(v : Int) else (v : Int))

/-- Result of `parseInt(x) || 0` (the `NaN`-defaulting idiom). -/
def parseIntOr0 (s : Str) : Int := (parseIntJS s).getD 0

/-- Exact rational number with explicit numerator and denominator (the
denominators the pipeline produces are always powers of ten).  This is
the model of the JavaScript floating-point amounts: all amount
arithmetic in the sources is exact on such decimals, and this
representation reduces inside the kernel, unlike `ℚ`'s normalized
operations. -/
structure DecNum where
  num : Int
  den : Nat
deriving DecidableEq, Repr

instance (n : Nat) : OfNat DecNum n := ⟨⟨n, 1⟩⟩

/-- Value ordering of decimals (cross multiplication; denominators are
nonnegative). -/
instance : LT DecNum := ⟨fun a b => a.num * b.den < b.num * a.den⟩

/-- Value ordering of decimals. -/
instance : LE DecNum := ⟨fun a b => a.num * b.den ≤ b.num * a.den⟩

instance (a b : DecNum) : Decidable (a < b) :=
  inferInstanceAs (Decidable (a.num * b.den < b.num * a.den))

instance (a b : DecNum) : Decidable (a ≤ b) :=
  inferInstanceAs (Decidable (a.num * b.den ≤ b.num * a.den))

/-- Unfolded strict order. -/
theorem DecNum.lt_def (a b : DecNum) :
    a < b ↔ a.num * b.den < b.num * a.den := Iff.rfl

/-- Unfolded order. -/
theorem DecNum.le_def (a b : DecNum) :
    a ≤ b ↔ a.num * b.den ≤ b.num * a.den := Iff.rfl

/-- Numerator of the zero literal. -/
theorem DecNum.zero_num : (0 : DecNum).num = 0 := rfl

/-- Denominator of the zero literal. -/
theorem DecNum.zero_den : (0 : DecNum).den = 1 := rfl

/-- Positivity reads off the numerator. -/
theorem DecNum.zero_lt_iff (a : DecNum) : 0 < a ↔ 0 < a.num := by
  rw [DecNum.lt_def, DecNum.zero_num, DecNum.zero_den]
  omega

/-- Nonnegativity reads off the numerator. -/
theorem DecNum.zero_le_iff (a : DecNum) : 0 ≤ a ↔ 0 ≤ a.num := by
  rw [DecNum.le_def, DecNum.zero_num, DecNum.zero_den]
  omega

/-- Order totality in the form the rejection gates need. -/
theorem DecNum.lt_of_not_le {a : DecNum} (h : ¬ a ≤ 0) : 0 < a := by
  rw [DecNum.le_def, DecNum.zero_num, DecNum.zero_den] at h
  rw [DecNum.lt_def, DecNum.zero_num, DecNum.zero_den]
  omega

/-- Addition of decimals. -/
def DecNum.add (a b : DecNum) : DecNum :=
  ⟨a.num * b.den + b.num * a.den, a.den * b.den⟩

/-- Multiplication of decimals. -/
def DecNum.mul (a b : DecNum) : DecNum :=
  ⟨a.num * b.num, a.den * b.den⟩

/-- Division of decimals. -/
def DecNum.div (a b : DecNum) : DecNum :=
  if 0 ≤ b.num then ⟨a.num * b.den, a.den * b.num.natAbs⟩
  else ⟨-(a.num * b.den), a.den * b.num.natAbs⟩

/-- Negation of decimals. -/
def DecNum.neg (a : DecNum) : DecNum := ⟨-a.num, a.den⟩

/-- Absolute value of decimals (JavaScript `Math.abs`). -/
def DecNum.abs (a : DecNum) : DecNum := ⟨a.num.natAbs, a.den⟩

/-- Value equality with zero (JavaScript `=== 0` on numbers). -/
def DecNum.eqZero (a : DecNum) : Bool := a.num == 0

/-- Power of ten as a decimal. -/
def decPow10 (k : Nat) : DecNum := ⟨(10 : Int) ^ k, 1⟩

/-- Apply a decimal exponent suffix of a float literal if one is present
(the `e`/`E` tail of JavaScript `parseFloat`). -/
def applyExp (mag : DecNum) (rest : Str) : DecNum :=
  let (eneg, rest) :=
    match rest with
    | '-' :: r => (true, r)
    | '+' :: r => (false, r)
    | _ => (false, rest)
  let eds := rest.takeWhile isDigitCh
  if eds.isEmpty then mag
  else
    let ev : Nat := eds.foldl (fun acc c => acc * 10 + digitVal c) 0
    if eneg then mag.div (decPow10 ev) else mag.mul (decPow10 ev)

/-- Sign prefix of a float literal: a leading `-` or `+` is consumed. -/
def parseSign (t : Str) : Bool × Str :=
  match t with
  | '-' :: rest => (true, rest)
  | '+' :: rest => (false, rest)
  | _ => (false, t)

/-- Unsigned part of a float literal: integer digits, optional fraction,
optional decimal exponent; `none` if there are no digits at all. -/
def parseMag (t : Str) : Option DecNum :=
  let ip := t.takeWhile isDigitCh
  let t := t.drop ip.length
  let (fp, t) :=
    match t with
    | '.' :: rest =>
      (rest.takeWhile isDigitCh, rest.drop (rest.takeWhile isDigitCh).length)
    | _ => ([], t)
  if ip.isEmpty && fp.isEmpty then none
  else
    let iv : Nat := ip.foldl (fun acc c => acc * 10 + digitVal c) 0
    let fv : Nat := fp.foldl (fun acc c => acc * 10 + digitVal c) 0
    let mag : DecNum := DecNum.add ⟨iv, 1⟩ (DecNum.div ⟨fv, 1⟩ (decPow10 fp.length))
    some (match t with
      | 'e' :: rest => applyExp mag rest
      | 'E' :: rest => applyExp mag rest
      | _ => mag)

/-- JavaScript `parseFloat` on a string, as an exact rational: skip
leading whitespace, optional sign, integer digits, optional fraction,
optional decimal exponent; `none` models `NaN` (no digits at all). -/
def parseFloatJS (s : Str) : Option DecNum :=
  let (neg, t) := parseSign (s.dropWhile isJsWs)
  (parseMag t).map (fun mag => if neg then mag.neg else mag)

/-- Digits of a natural number (for rendering). -/
def natStr (n : Nat) : Str := (Nat.repr n).toList

/-- Render an integer (JavaScript `String(int)`). -/
def intStr (i : Int) : Str :=
  if i < 0 then '-' :: natStr i.natAbs else natStr i.natAbs

/-- Left-pad a digit string with zeros to width 2 (`padStart(2, '0')`). -/
def pad2 (n : Nat) : Str :=
  if n < 10 then '0' :: natStr n else natStr n

/-- Left-pad a digit string with zeros to width 4 (ISO year field). -/
def pad4 (n : Nat) : Str :=
  if n < 10 then '0' :: '0' :: '0' :: natStr n
  else if n < 100 then '0' :: '0' :: natStr n
  else if n < 1000 then '0' :: natStr n
  else natStr n

/-- Split a string at every occurrence of a separator character
(JavaScript `split(sep)` for a one-character separator). -/
def splitOnCh (sep : Char) (s : Str) : List Str :=
  match s with
  | [] => [[]]
  | c :: cs =>
    let rest := splitOnCh sep cs
    if c == sep then [] :: rest
    else
      match rest with
      | [] => [[c]]
      | r :: rs => (c :: r) :: rs

/-- Line split of the CSV parser: JavaScript `split(/\r?\n/)`, i.e. break
at `\n`, consuming one immediately preceding `\r` with it. -/
def splitLinesCrLf (s : Str) : List Str :=
  match s with
  | [] => [[]]
  | '\r' :: '\n' :: cs => [] :: splitLinesCrLf cs
  | '\n' :: cs => [] :: splitLinesCrLf cs
  | c :: cs =>
    match splitLinesCrLf cs with
    | [] => [[c]]
    | r :: rs => (c :: r) :: rs

/-- Line split of the pdfjs parser: JavaScript `split(/\n|\r\n?/)`, i.e.
break at `\n`, `\r\n` or a lone `\r`. -/
def splitLinesAny (s : Str) : List Str :=
  match s with
  | [] => [[]]
  | '\n' :: cs => [] :: splitLinesAny cs
  | '\r' :: '\n' :: cs => [] :: splitLinesAny cs
  | '\r' :: cs => [] :: splitLinesAny cs
  | c :: cs =>
    match splitLinesAny cs with
    | [] => [[c]]
    | r :: rs => (c :: r) :: rs

/-- Collapse every maximal whitespace run to a single space (JavaScript
`replace(/\s+/g, ' ')`), tracked by whether the previous character was
whitespace. -/
def collapseWsAux : Bool → Str → Str
  | _, [] => []
  | prevWs, c :: rest =>
    if isJsWs c then
      if prevWs then collapseWsAux true rest
      else ' ' :: collapseWsAux true rest
    else c :: collapseWsAux false rest

/-- Collapse whitespace runs to single spaces. -/
def collapseWs (s : Str) : Str := collapseWsAux false s

/-- JavaScript `Date` model: the constructor arguments
`new Date(year, month0, day, hour, minute, second)` (month is 0-based, as
in the source, which always constructs dates this way). -/
structure JSDate where
  year : Int
  month0 : Int
  day : Int
  hour : Int
  minute : Int
  second : Int
deriving DecidableEq, Repr

/-- Days from the epoch of a civil date (year, 1-based month in `1..12`,
day); Howard Hinnant's `days_from_civil`, the arithmetic behind
JavaScript's `MakeDay` for in-range months. -/
def daysFromCivil (y m d : Int) : Int :=
  let y := y - (if m ≤ 2 then 1 else 0)
  let era := (if 0 ≤ y then y else y - 399) / 400
  let yoe := y - era * 400
  let mp := (m + 9) % 12
  let doy := (153 * mp + 2) / 5 + d - 1
  let doe := yoe * 365 + yoe / 4 - yoe / 100 + doy
  era * 146097 + doe - 719468

/-- Civil date (year, 1-based month, day) of a day number from the epoch;
Howard Hinnant's `civil_from_days`. -/
def civilFromDays (z : Int) : Int × Int × Int :=
  let z := z + 719468
  let era := (if 0 ≤ z then z else z - 146096) / 146097
  let doe := z - era * 146097
  let yoe := (doe - doe / 1460 + doe / 36524 - doe / 146096) / 365
  let y := yoe + era * 400
  let doy := doe - (365 * yoe + yoe / 4 - yoe / 100)
  let mp := (5 * doy + 2) / 153
  let d := doy - (153 * mp + 2) / 5 + 1
  let m := mp + (if mp < 10 then 3 else -9)
  (y + (if m ≤ 2 then 1 else 0), m, d)

/-- JavaScript `Date.prototype.getTime` for a date built as
`new Date(y, m0, d, hh, mm, ss)` with local time modelled as UTC:
`MakeDay` folds month overflow into the year, `MakeTime` is plain
arithmetic on the time components. -/
def JSDate.getTime (dt : JSDate) : Int :=
  let ym := dt.year + dt.month0.fdiv 12
  let mn := dt.month0.emod 12
  let days := daysFromCivil ym (mn + 1) 1 + (dt.day - 1)
  days * 86400000 + dt.hour * 3600000 + dt.minute * 60000 + dt.second * 1000

/-- Normalized UTC components `(y, m, d, hh, mm, ss)` of a date's time
value (what `toISOString` and the `getFullYear`/`getMonth` accessors
read back). -/
def JSDate.components (dt : JSDate) : Int × Int × Int × Int × Int × Int :=
  let t := dt.getTime
  let days := t.fdiv 86400000
  let rem := t.emod 86400000
  let (y, m, d) := civilFromDays days
  (y, m, d, rem / 3600000, (rem / 60000) % 60, (rem / 1000) % 60)

/-- Render an ISO year field: 4-digit years plainly, others in the
JavaScript expanded `±YYYYYY` form. -/
def isoYearStr (y : Int) : Str :=
  if 0 ≤ y && y ≤ 9999 then pad4 y.toNat
  else if y < 0 then
    '-' :: (if y.natAbs < 10 then str "00000" ++ natStr y.natAbs
      else if y.natAbs < 100 then str "0000" ++ natStr y.natAbs
      else if y.natAbs < 1000 then str "000" ++ natStr y.natAbs
      else if y.natAbs < 10000 then str "00" ++ natStr y.natAbs
      else if y.natAbs < 100000 then str "0" ++ natStr y.natAbs
      else natStr y.natAbs)
  else
    '+' :: (if y.natAbs < 100000 then str "0" ++ natStr y.natAbs
      else natStr y.natAbs)

/-- JavaScript `Date.prototype.toISOString` (milliseconds are always zero
for the dates the source constructs). -/
def JSDate.toISOString (dt : JSDate) : Str :=
  let (y, m, d, hh, mm, ss) := dt.components
  isoYearStr y ++ ['-'] ++ pad2 m.toNat ++ ['-'] ++ pad2 d.toNat ++ ['T'] ++
    pad2 hh.toNat ++ [':'] ++ pad2 mm.toNat ++ [':'] ++ pad2 ss.toNat ++
    str ".000Z"

/-- JavaScript `getFullYear()` under the local-time-equals-UTC model. -/
def JSDate.getFullYear (dt : JSDate) : Int := dt.components.1

/-- JavaScript `getMonth()` (0-based) under the local-time-equals-UTC model. -/
def JSDate.getMonth (dt : JSDate) : Int := dt.components.2.1 - 1

/-- UTF-8 encoding of one code point. -/
def utf8Ch (c : Char) : List Nat :=
  let n := c.toNat
  if n < 0x80 then [n]
  else if n < 0x800 then [0xc0 + n / 64, 0x80 + n % 64]
  else if n < 0x10000 then
    [0xe0 + n / 4096, 0x80 + (n / 64) % 64, 0x80 + n % 64]
  else
    [0xf0 + n / 262144, 0x80 + (n / 4096) % 64, 0x80 + (n / 64) % 64,
      0x80 + n % 64]

/-- UTF-8 encoding of a modelled string. -/
def utf8Bytes (s : Str) : List Nat := s.flatMap utf8Ch

/-- The wrap-around modulus of 32-bit words. -/
def w32 : Nat := 4294967296

/-- Right-rotation of a 32-bit word. -/
def rotr32 (x k : Nat) : Nat := ((x >>> k) ||| (x <<< (32 - k))) % w32

/-- Bitwise complement of a 32-bit word. -/
def not32 (x : Nat) : Nat := x ^^^ 0xffffffff

/-- SHA-256 round constants. -/
def sha256K : List Nat :=
  [0x428A2F98, 0x71374491, 0xB5C0FBCF, 0xE9B5DBA5, 0x3956C25B, 0x59F111F1,
   0x923F82A4, 0xAB1C5ED5, 0xD807AA98, 0x12835B01, 0x243185BE, 0x550C7DC3,
   0x72BE5D74, 0x80DEB1FE, 0x9BDC06A7, 0xC19BF174, 0xE49B69C1, 0xEFBE4786,
   0x0FC19DC6, 0x240CA1CC, 0x2DE92C6F, 0x4A7484AA, 0x5CB0A9DC, 0x76F988DA,
   0x983E5152, 0xA831C66D, 0xB00327C8, 0xBF597FC7, 0xC6E00BF3, 0xD5A79147,
   0x06CA6351, 0x14292967, 0x27B70A85, 0x2E1B2138, 0x4D2C6DFC, 0x53380D13,
   0x650A7354, 0x766A0ABB, 0x81C2C92E, 0x92722C85, 0xA2BFE8A1, 0xA81A664B,
   0xC24B8B70, 0xC76C51A3, 0xD192E819, 0xD6990624, 0xF40E3585, 0x106AA070,
   0x19A4C116, 0x1E376C08, 0x2748774C, 0x34B0BCB5, 0x391C0CB3, 0x4ED8AA4A,
   0x5B9CCA4F, 0x682E6FF3, 0x748F82EE, 0x78A5636F, 0x84C87814, 0x8CC70208,
   0x90BEFFFA, 0xA4506CEB, 0xBEF9A3F7, 0xC67178F2]

/-- SHA-256 initial hash state. -/
def sha256H0 : List Nat :=
  [0x6A09E667, 0xBB67AE85, 0x3C6EF372, 0xA54FF53A, 0x510E527F, 0x9B05688C,
   0x1F83D9AB, 0x5BE0CD19]

/-- Big-endian bytes of a 64-bit value (the padded-length field). -/
def be64 (n : Nat) : List Nat :=
  [n >>> 56 % 256, n >>> 48 % 256, n >>> 40 % 256, n >>> 32 % 256,
   n >>> 24 % 256, n >>> 16 % 256, n >>> 8 % 256, n % 256]

/-- SHA-256 message padding: `0x80`, zeros to 56 mod 64, 8-byte
big-endian bit length. -/
def sha256Pad (msg : List Nat) : List Nat :=
  let l := msg.length
  let zeros := (64 - ((l + 9) % 64)) % 64
  msg ++ [0x80] ++ List.replicate zeros 0 ++ be64 (l * 8)

/-- Group a byte list into 64-byte blocks (fuel-driven so that kernel
reduction stays structural). -/
def chunk64 (fuel : Nat) (l : List Nat) : List (List Nat) :=
  match fuel with
  | 0 => []
  | fuel + 1 =>
    match l with
    | [] => []
    | _ => l.take 64 :: chunk64 fuel (l.drop 64)

/-- Big-endian 32-bit words of a block. -/
def toWords : List Nat → List Nat
  | b0 :: b1 :: b2 :: b3 :: rest =>
    (b0 * 16777216 + b1 * 65536 + b2 * 256 + b3) :: toWords rest
  | _ => []

/-- Message-schedule extension: append words 16..63. -/
def extendW (w : List Nat) : List Nat :=
  (List.range 48).foldl
    (fun w _ =>
      let n := w.length
      let w15 := w.getD (n - 15) 0
      let w2 := w.getD (n - 2) 0
      let s0 := rotr32 w15 7 ^^^ rotr32 w15 18 ^^^ (w15 >>> 3)
      let s1 := rotr32 w2 17 ^^^ rotr32 w2 19 ^^^ (w2 >>> 10)
      w ++ [(w.getD (n - 16) 0 + s0 + w.getD (n - 7) 0 + s1) % w32])
    w

/-- One SHA-256 compression round. -/
def sha256Round (st : Nat × Nat × Nat × Nat × Nat × Nat × Nat × Nat)
    (kw : Nat × Nat) : Nat × Nat × Nat × Nat × Nat × Nat × Nat × Nat :=
  let (a, b, c, d, e, f, g, h) := st
  let (k, w) := kw
  let s1 := rotr32 e 6 ^^^ rotr32 e 11 ^^^ rotr32 e 25
  let ch := (e &&& f) ^^^ (not32 e &&& g)
  let t1 := (h + s1 + ch + k + w) % w32
  let s0 := rotr32 a 2 ^^^ rotr32 a 13 ^^^ rotr32 a 22
  let mj := (a &&& b) ^^^ (a &&& c) ^^^ (b &&& c)
  let t2 := (s0 + mj) % w32
  ((t1 + t2) % w32, a, b, c, (d + t1) % w32, e, f, g)

/-- Compress one block into the hash state. -/
def sha256Block (hs : List Nat) (block : List Nat) : List Nat :=
  let w := extendW (toWords block)
  let a0 := hs.getD 0 0
  let b0 := hs.getD 1 0
  let c0 := hs.getD 2 0
  let d0 := hs.getD 3 0
  let e0 := hs.getD 4 0
  let f0 := hs.getD 5 0
  let g0 := hs.getD 6 0
  let h0 := hs.getD 7 0
  let (a, b, c, d, e, f, g, h) :=
    (sha256K.zip w).foldl sha256Round (a0, b0, c0, d0, e0, f0, g0, h0)
  [(a0 + a) % w32, (b0 + b) % w32, (c0 + c) % w32, (d0 + d) % w32,
   (e0 + e) % w32, (f0 + f) % w32, (g0 + g) % w32, (h0 + h) % w32]

/-- Lowercase hexadecimal digit. -/
def hexDigit (n : Nat) : Char :=
  if n < 10 then Char.ofNat ('0'.toNat + n)
  else Char.ofNat ('a'.toNat + (n - 10))

/-- Eight lowercase hex digits of a 32-bit word. -/
def hex8 (n : Nat) : Str :=
  [hexDigit (n >>> 28 % 16), hexDigit (n >>> 24 % 16), hexDigit (n >>> 20 % 16),
   hexDigit (n >>> 16 % 16), hexDigit (n >>> 12 % 16), hexDigit (n >>> 8 % 16),
   hexDigit (n >>> 4 % 16), hexDigit (n % 16)]

/-- SHA-256 digest of a byte list, as a lowercase hex string (Node's
`createHash('sha256').update(data).digest('hex')`). -/
def sha256Hex (msg : List Nat) : Str :=
  let padded := sha256Pad msg
  let blocks := chunk64 (padded.length / 64 + 1) padded
  (blocks.foldl sha256Block sha256H0).flatMap hex8

/-- Smallest exponent `k ≤ 30` with `d ∣ 10^k` (for decimal rendering of
parsed amounts, whose denominators are always powers of ten). -/
def decExp (d : Nat) : Option Nat :=
  (List.range 31).find? (fun k => 10 ^ k % d == 0)

/-- Fixed-width zero-padded decimal digits. -/
def padZeros (k n : Nat) : Str :=
  let ds := natStr n
  List.replicate (k - ds.length) '0' ++ ds

/-- JavaScript number-to-string for the amounts the pipeline handles
(finite decimals): integer part, then the fraction with trailing zeros
dropped, as in `${amount}` template interpolation. -/
def numToStr (q : DecNum) : Str :=
  if q.den = 1 then intStr q.num
  else
    match decExp q.den with
    | none => str "?"
    | some k =>
      let scaled : Nat := q.num.natAbs * ((10 ^ k) / q.den)
      let ip := scaled / 10 ^ k
      let fp := scaled % 10 ^ k
      let fracDs := ((padZeros k fp).reverse.dropWhile (fun c => c == '0')).reverse
      (if q.num < 0 then ['-'] else []) ++ natStr ip ++
        (if fracDs.isEmpty then [] else '.' :: fracDs)

/-- Characters kept by the fingerprint normalizer: the Thai block
`฀-๿`, ASCII letters and digits, and whitespace (the source's
`[^฀-๿a-zA-Z0-9\s]` deletion class, complemented). -/
def keepCh (c : Char) : Bool :=
  (0x0e00 ≤ c.toNat && c.toNat ≤ 0x0e7f) ||
  ('a' ≤ c && c ≤ 'z') || ('A' ≤ c && c ≤ 'Z') || isDigitCh c || isJsWs c

/-- Normalization of `src/lib/utils.ts` `normalizeDescription`:
lowercase, collapse whitespace runs to one space, trim, then delete every
character outside the Thai/alphanumeric/whitespace class — in exactly
that order. -/
def normalizeDescription (description : Str) : Str :=
  (jsTrim (collapseWs (jsLower description))).filter keepCh

/-- Fingerprint of `src/lib/utils.ts` `generateTransactionFingerprint`:
SHA-256 over `iso|amount|channel|normalizedDescription`. -/
def generateTransactionFingerprint (dateTime : JSDate) (amount : DecNum)
    (channel description : Str) : Str :=
  let normalizedDescription := normalizeDescription description
  let dataString := dateTime.toISOString ++ ['|'] ++ numToStr amount ++ ['|'] ++
    channel ++ ['|'] ++ normalizedDescription
  sha256Hex (utf8Bytes dataString)

/-- Maximal leading digit run and the remainder. -/
def takeDigits (s : Str) : Str × Str :=
  (s.takeWhile isDigitCh, s.dropWhile isDigitCh)

/-- Value of a pure digit string (`parseInt(digits, 10)`). -/
def digitsVal (ds : Str) : Nat :=
  ds.foldl (fun acc c => acc * 10 + digitVal c) 0

/-- Date separator class `[\/\-]`. -/
def isDateSep (c : Char) : Bool := c == '/' || c == '-'

/-- Anchored match of `^(\d{1,2})[\/\-](\d{1,2})[\/\-](\d{4})$` returning
the three numeric groups `(day, month, year)`. -/
def matchDMY4 (s : Str) : Option (Nat × Nat × Nat) :=
  let (d, r) := takeDigits s
  if d.length < 1 || 2 < d.length then none else
  match r with
  | c1 :: r =>
    if !isDateSep c1 then none else
    let (m, r) := takeDigits r
    if m.length < 1 || 2 < m.length then none else
    match r with
    | c2 :: r =>
      if !isDateSep c2 then none else
      let (y, r) := takeDigits r
      if y.length == 4 && r.isEmpty then
        some (digitsVal d, digitsVal m, digitsVal y)
      else none
    | [] => none
  | [] => none

/-- Anchored match of `^(\d{4})[\/\-](\d{1,2})[\/\-](\d{1,2})$` returning
`(year, month, day)`. -/
def matchY4MD (s : Str) : Option (Nat × Nat × Nat) :=
  let (y, r) := takeDigits s
  if y.length != 4 then none else
  match r with
  | c1 :: r =>
    if !isDateSep c1 then none else
    let (m, r) := takeDigits r
    if m.length < 1 || 2 < m.length then none else
    match r with
    | c2 :: r =>
      if !isDateSep c2 then none else
      let (d, r) := takeDigits r
      if 1 ≤ d.length && d.length ≤ 2 && r.isEmpty then
        some (digitsVal y, digitsVal m, digitsVal d)
      else none
    | [] => none
  | [] => none

/-- Anchored match of `^(\d{1,2}):(\d{2})(?::(\d{2}))?$` returning
`(hours, minutes, seconds)` with seconds defaulting to `0`. -/
def matchHMS (s : Str) : Option (Nat × Nat × Nat) :=
  let (h, r) := takeDigits s
  if h.length < 1 || 2 < h.length then none else
  match r with
  | ':' :: r =>
    let (m, r) := takeDigits r
    if m.length != 2 then none else
    match r with
    | [] => some (digitsVal h, digitsVal m, 0)
    | ':' :: r2 =>
      let (s2, r3) := takeDigits r2
      if s2.length == 2 && r3.isEmpty then
        some (digitsVal h, digitsVal m, digitsVal s2)
      else none
    | _ => none
  | _ => none

/-- Date parser of `src/lib/utils.ts` `parseThaiDate`: day-first
`DD/MM/YYYY` (or `-` separated) with Buddhist-Era correction for years
above 2400, else year-first `YYYY-MM-DD`, else a thrown error; the
optional time token contributes hours/minutes/seconds when it matches
`H{1,2}:MM[:SS]`. -/
def parseThaiDate (dateStr : Str) (timeStr : Option Str) :
    Except Str JSDate :=
  let dateStr := jsTrim dateStr
  let dmy :=
    match matchDMY4 dateStr with
    | some (d, m, y) =>
      some (d, (m : Int) - 1, if 2400 < y then (y : Int) - 543 else (y : Int))
    | none =>
      match matchY4MD dateStr with
      | some (y, m, d) =>
        some (d, (m : Int) - 1, if 2400 < y then (y : Int) - 543 else (y : Int))
      | none => none
  match dmy with
  | none => .error (str "Unable to parse date: " ++ dateStr)
  | some (d, m0, y) =>
    let (hh, mm, ss) :=
      match timeStr with
      | none => (0, 0, 0)
      | some t =>
        match matchHMS t with
        | some hms => hms
        | none => (0, 0, 0)
    .ok ⟨y, m0, (d : Int), (hh : Int), (mm : Int), (ss : Int)⟩

/-- Inflow keyword denylist of `src/lib/constants.ts` `INFLOW_PATTERNS`. -/
def INFLOW_PATTERNS : List Str :=
  [str "ยอดยกมา", str "รับโอนเงิน", str "รับฝาก", str "ดอกเบี้ย",
   str "คืนเงิน", str "REFUND", str "เงินเข้า"]

/-- Built-in categorization hints of `src/lib/constants.ts`
`CHANNEL_CATEGORY_HINTS`, in object insertion order. -/
def CHANNEL_CATEGORY_HINTS : List (Str × List Str) :=
  [(str "บิลบ้าน(ไฟ/น้ำ/เน็ต/โทร)",
    [str "MEA", str "PEA", str "MWA", str "PWA", str "TOT", str "TRUE",
     str "AIS", str "DTAC", str "3BB", str "NT"]),
   (str "สมัครสมาชิก/ตัดอัตโนมัติ",
    [str "NETFLIX", str "SPOTIFY", str "YOUTUBE", str "APPLE", str "GOOGLE",
     str "ICLOUD", str "GRAB"]),
   (str "ผ่อน/บัตรเครดิต/หนี้",
    [str "PAYMENT", str "LOAN", str "CREDIT CARD", str "บัตรเครดิต", str "ผ่อน"]),
   (str "อาหาร/เครื่องดื่ม",
    [str "GRAB FOOD", str "FOODPANDA", str "LINEMAN", str "SHOPEE FOOD",
     str "STARBUCKS", str "MK", str "PIZZA"]),
   (str "เดินทาง/น้ำมัน/รถ",
    [str "PTT", str "SHELL", str "ESSO", str "BANGCHAK", str "BOLT",
     str "GRAB", str "ปั๊ม"]),
   (str "ช้อปปิ้ง",
    [str "SHOPEE", str "LAZADA", str "CENTRAL", str "BIG C", str "TESCO",
     str "LOTUS", str "7-ELEVEN", str "MAKRO"]),
   (str "สุขภาพ",
    [str "HOSPITAL", str "CLINIC", str "PHARMACY", str "ร้านยา",
     str "โรงพยาบาล"])]

/-- Parsed transaction record shared by all three parser variants. -/
structure ParsedTransaction where
  dateTime : JSDate
  amount : DecNum
  itemType : Str
  channel : Str
  descriptionRaw : Str
  fingerprint : Str
deriving DecidableEq, Repr

/-- Parse-result record shared by all three parser variants
(`CsvParseResult` / `ParseResult` in the sources). -/
structure ParseResult where
  success : Bool
  transactions : List ParsedTransaction
  statementMonth : Option Str
  accountNumber : Option Str
  error : Option Str
  rawRowCount : Nat
  filteredOutCount : Nat
deriving DecidableEq, Repr

/-- Month key `${getFullYear()}-${String(getMonth()+1).padStart(2,'0')}`. -/
def monthKey (dt : JSDate) : Str :=
  intStr dt.getFullYear ++ ['-'] ++ pad2 (dt.getMonth + 1).toNat

/-- Increment a key's count in an insertion-ordered count table
(JavaScript object used as a counter). -/
def bumpKey : List (Str × Nat) → Str → List (Str × Nat)
  | [], k => [(k, 1)]
  | (k', n) :: rest, k =>
    if k' == k then (k', n + 1) :: rest else (k', n) :: bumpKey rest k

/-- Mode of a list of keys: the first-inserted key with the strictly
largest count (`maxCount` starts at zero and is beaten only strictly). -/
def monthMode (keys : List Str) : Str :=
  let counts := keys.foldl bumpKey []
  (counts.foldl
    (fun (best : Str × Nat) kv => if best.2 < kv.2 then kv else best)
    ([], 0)).1

namespace CsvParser

/-- Bank selector of `parseCsvStatement`. -/
inductive Bank where
  | kbank
  | scb
deriving DecidableEq, Repr

/-- Intermediate row record (`ParsedRow` in `csv-parser.ts`). -/
structure ParsedRow where
  dateTime : JSDate
  amount : DecNum
  itemType : Str
  channel : Str
  description : Str
  accountNumber : Option Str
  isInflow : Bool
deriving DecidableEq, Repr

/-- Field scan of `parseCsvLine`'s character loop: a `"` toggles the
quote flag (and is not emitted), a `,` outside quotes ends the field,
anything else is appended to the current field. -/
def csvFieldScan : Bool → Str → List Str
  | _, [] => [[]]
  | inQuotes, c :: rest =>
    if c == '"' then csvFieldScan (!inQuotes) rest
    else if c == ',' && !inQuotes then [] :: csvFieldScan inQuotes rest
    else
      match csvFieldScan inQuotes rest with
      | [] => [[c]]
      | r :: rs => (c :: r) :: rs

/-- Removal of one leading quote character, if present. -/
def stripLeadQuote (s : Str) : Str :=
  match s with | '"' :: r => r | _ => s

/-- Edge-quote strip `replace(/^"|"$/g, '')`: one leading and one
trailing quote character are removed if present. -/
def stripEdgeQuotes (s : Str) : Str :=
  let s1 := stripLeadQuote s
  match s1.reverse with | '"' :: r => r.reverse | _ => s1

/-- CSV line splitter `parseCsvLine` of `csv-parser.ts`. -/
def parseCsvLine (line : Str) : List Str :=
  (csvFieldScan false line).map (fun s => jsTrim (stripEdgeQuotes s))

/-- Amount parser `parseAmount` of `csv-parser.ts`: strip commas,
whitespace and the baht sign, `parseFloat`, `NaN` to zero, absolute
value. -/
def parseAmount (amountStr : Str) : DecNum :=
  if amountStr.isEmpty then 0
  else
    let cleaned := jsTrim (amountStr.filter
      (fun c => !(c == ',' || isJsWs c || c == '฿')))
    match parseFloatJS cleaned with
    | none => 0
    | some q => q.abs

/-- Anchored match of `^(\d{1,2})\/(\d{1,2})\/(\d{2,4})$` (slash only),
returning `(day, month, year)`. -/
def matchDMY24 (s : Str) : Option (Nat × Nat × Nat) :=
  let (d, r) := takeDigits s
  if d.length < 1 || 2 < d.length then none else
  match r with
  | '/' :: r =>
    let (m, r) := takeDigits r
    if m.length < 1 || 2 < m.length then none else
    match r with
    | '/' :: r =>
      let (y, r) := takeDigits r
      if 2 ≤ y.length && y.length ≤ 4 && r.isEmpty then
        some (digitsVal d, digitsVal m, digitsVal y)
      else none
    | _ => none
  | _ => none

/-- Anchored match of `^(\d{4})-(\d{1,2})-(\d{1,2})$` (dash only),
returning `(year, month, day)`. -/
def matchY4MDdash (s : Str) : Option (Nat × Nat × Nat) :=
  let (y, r) := takeDigits s
  if y.length != 4 then none else
  match r with
  | '-' :: r =>
    let (m, r) := takeDigits r
    if m.length < 1 || 2 < m.length then none else
    match r with
    | '-' :: r =>
      let (d, r) := takeDigits r
      if 1 ≤ d.length && d.length ≤ 2 && r.isEmpty then
        some (digitsVal y, digitsVal m, digitsVal d)
      else none
    | _ => none
  | _ => none

/-- Date parser `parseDate` of `csv-parser.ts`: `DD/MM/YYYY` (two-digit
years pivoting at 50, Buddhist-Era correction above 2500) or
`YYYY-MM-DD` (same correction); hour and minute come from splitting the
time string at `:` with `parseInt(x) || 0`. -/
def parseDate (dateStr timeStr : Str) : Option JSDate :=
  let withTime : Int → Int → Int → JSDate := fun y m d =>
    let tp := splitOnCh ':' timeStr
    let hour := parseIntOr0 (tp.getD 0 [])
    let minute := parseIntOr0 (tp.getD 1 [])
    ⟨y, m - 1, d, hour, minute, 0⟩
  match matchDMY24 dateStr with
  | some (d, m, y) =>
    let y : Int :=
      if y < 100 then (if 50 < y then 1900 + (y : Int) else 2000 + (y : Int))
      else (y : Int)
    let y : Int := if 2500 < y then y - 543 else y
    some (withTime y (m : Int) (d : Int))
  | none =>
    match matchY4MDdash dateStr with
    | some (y, m, d) =>
      let y : Int := if 2500 < (y : Int) then (y : Int) - 543 else (y : Int)
      some (withTime y (m : Int) (d : Int))
    | none => none

/-- Falsy-string defaulting (`s || d`). -/
def orDefault (s d : Str) : Str := if s.isEmpty then d else s

/-- Row parser `parseKBankCsvRow` of `csv-parser.ts`. -/
def parseKBankCsvRow (line : Str) : Option ParsedRow :=
  let fields := parseCsvLine line
  if fields.length < 4 then none else
  let dateStr := jsTrim (fields.getD 0 [])
  let timeStr := jsTrim (fields.getD 1 [])
  if dateStr.isEmpty || timeStr.isEmpty then none else
  match parseDate dateStr timeStr with
  | none => none
  | some dateTime =>
    let (withdrawal, deposit, description, channel, itemType) :=
      if 8 ≤ fields.length then
        (parseAmount (fields.getD 4 []), parseAmount (fields.getD 5 []),
         orDefault (jsTrim (fields.getD 7 [])) [],
         orDefault (jsTrim (fields.getD 3 [])) (str "K PLUS"),
         orDefault (jsTrim (fields.getD 2 [])) (str "รายจ่าย"))
      else if 6 ≤ fields.length then
        (parseAmount (fields.getD 3 []), parseAmount (fields.getD 4 []),
         orDefault (jsTrim (fields.getD 2 [])) [],
         str "K PLUS", str "รายจ่าย")
      else
        (parseAmount (fields.getD 3 []), 0,
         orDefault (jsTrim (fields.getD 2 [])) [],
         str "K PLUS", str "รายจ่าย")
    let isInflow := 0 < deposit && withdrawal.eqZero
    let amount := if 0 < withdrawal then withdrawal else deposit
    if amount ≤ 0 then none
    else some ⟨dateTime, amount, itemType, channel, description, none, isInflow⟩

/-- Row parser `parseSCBCsvRow` of `csv-parser.ts`. -/
def parseSCBCsvRow (line : Str) : Option ParsedRow :=
  let fields := parseCsvLine line
  if fields.length < 4 then none else
  let dateStr := jsTrim (fields.getD 0 [])
  let timeStr := orDefault (jsTrim (fields.getD 1 [])) (str "00:00")
  if dateStr.isEmpty then none else
  match parseDate dateStr timeStr with
  | none => none
  | some dateTime =>
    let description := orDefault (jsTrim (fields.getD 2 [])) []
    let withdrawal := parseAmount (fields.getD 3 [])
    let deposit := parseAmount (orDefault (fields.getD 4 []) (str "0"))
    let isInflow := 0 < deposit && withdrawal.eqZero
    let amount := if 0 < withdrawal then withdrawal else deposit
    if amount ≤ 0 then none
    else some ⟨dateTime, amount, str "รายจ่าย", str "SCB Easy", description,
      none, isInflow⟩

/-- Inflow test applied to a parsed row's description in
`parseCsvStatement` (case-insensitive keyword containment, or the row's
own deposit-only flag). -/
def rowIsInflow (parsed : ParsedRow) : Bool :=
  INFLOW_PATTERNS.any
    (fun pattern => includesL (jsLower parsed.description) (jsLower pattern)) ||
  parsed.isInflow

/-- Build the output transaction of a kept row (fingerprint included). -/
def mkTransaction (parsed : ParsedRow) : ParsedTransaction :=
  { dateTime := parsed.dateTime, amount := parsed.amount,
    itemType := parsed.itemType, channel := parsed.channel,
    descriptionRaw := parsed.description,
    fingerprint := generateTransactionFingerprint parsed.dateTime parsed.amount
      parsed.channel parsed.description }

/-- Data-row loop of `parseCsvStatement` (lines after the header):
returns collected transactions in row order, `rawRowCount`,
`filteredOutCount` and the first available account number. -/
def parseCsvRows (bank : Bank) :
    List Str → List ParsedTransaction × Nat × Nat × Option Str
  | [] => ([], 0, 0, none)
  | l :: rest =>
    let (txs, raw, filt, acct) := parseCsvRows bank rest
    let line := jsTrim l
    if line.isEmpty then (txs, raw, filt, acct)
    else
      match (match bank with
             | Bank.kbank => parseKBankCsvRow line
             | Bank.scb => parseSCBCsvRow line) with
      | none => (txs, raw + 1, filt, acct)
      | some parsed =>
        if rowIsInflow parsed then (txs, raw + 1, filt + 1, acct)
        else
          (mkTransaction parsed :: txs, raw + 1, filt,
           match parsed.accountNumber with
           | some a => some a
           | none => acct)

/-- Statement-month mode `detectStatementMonth` of `csv-parser.ts`
(computed over the unsorted transaction list). -/
def detectStatementMonth (transactions : List ParsedTransaction) :
    Option Str :=
  if transactions.isEmpty then none
  else
    let maxMonth := monthMode (transactions.map (fun tx => monthKey tx.dateTime))
    if maxMonth.isEmpty then none else some maxMonth

/-- Descending-timestamp comparison used by the final
`transactions.sort((a, b) => b.dateTime.getTime() - a.dateTime.getTime())`. -/
def newestFirst (a b : ParsedTransaction) : Bool :=
  decide (b.dateTime.getTime ≤ a.dateTime.getTime)

/-- Entry point `parseCsvStatement` of `csv-parser.ts` (synchronous
model of the `async` function; the surrounding `try`/`catch` is dead in
the embedding because every step is total). -/
def parseCsvStatement (fileContent : Str) (bank : Bank) : ParseResult :=
  let lines := (splitLinesCrLf fileContent).filter
    (fun line => !(jsTrim line).isEmpty)
  if lines.length < 2 then
    { success := false, transactions := [], statementMonth := none,
      accountNumber := none,
      error := some (str "CSV file appears to be empty or invalid"),
      rawRowCount := 0, filteredOutCount := 0 }
  else
    let (txs, raw, filt, acct) := parseCsvRows bank (lines.drop 1)
    let statementMonth := detectStatementMonth txs
    let sorted := txs.mergeSort newestFirst
    { success := true, transactions := sorted, statementMonth,
      accountNumber := acct, error := none, rawRowCount := raw,
      filteredOutCount := filt }

end CsvParser

namespace PdfjsParser

/-- Maximal leading run of `[\d,]` and the remainder. -/
def takeDigitsComma (s : Str) : Str × Str :=
  (s.takeWhile (fun c => isDigitCh c || c == ','),
   s.dropWhile (fun c => isDigitCh c || c == ','))

/-- The amount group `([\d,]+\.?\d*)` at the start of the string: a
nonempty digit/comma run, then an optional dot with a digit run.
Returns the captured group and the remainder. -/
def amountSeg (s : Str) : Option (Str × Str) :=
  let (r1, afterR1) := takeDigitsComma s
  if r1.isEmpty then none else
  match afterR1 with
  | '.' :: afterDot =>
    let (r2, afterR2) := takeDigits afterDot
    some (r1 ++ '.' :: r2, afterR2)
  | _ => some (r1, afterR1)

/-- Attempt of the pdfjs transaction pattern
`(\d{2}\/\d{2}\/\d{2,4})\s+(\d{2}:\d{2})\s+([\d,]+\.?\d*)\s+(.+)` at the
start of the string, returning the four captured groups
`(date, time, amount, rest)`.  Greedy sub-matches with the regex's
backtracking resolved: each quantified token must be followed by a
character its successor accepts, which pins every group to its maximal
run (the trailing `\s+`/`(.+)` pair gives one whitespace character back
when the line ends in whitespace). -/
def tryTxAt (s : Str) : Option (Str × Str × Str × Str) :=
  match s with
  | d1 :: d2 :: '/' :: d3 :: d4 :: '/' :: afterSlash =>
    if !(isDigitCh d1 && isDigitCh d2 && isDigitCh d3 && isDigitCh d4) then
      none
    else
      let (yr, afterYear) := takeDigits afterSlash
      if yr.length < 2 || 4 < yr.length then none else
      if (afterYear.takeWhile isJsWs).isEmpty then none else
      match afterYear.dropWhile isJsWs with
      | t1 :: t2 :: ':' :: t3 :: t4 :: afterTime =>
        if !(isDigitCh t1 && isDigitCh t2 && isDigitCh t3 && isDigitCh t4) then
          none
        else
          if (afterTime.takeWhile isJsWs).isEmpty then none else
          match amountSeg (afterTime.dropWhile isJsWs) with
          | none => none
          | some (amountStr, afterAmount) =>
            let ws3 := afterAmount.takeWhile isJsWs
            let tail := afterAmount.dropWhile isJsWs
            if ws3.isEmpty then none else
            let dateStr := d1 :: d2 :: '/' :: d3 :: d4 :: '/' :: yr
            let timeStr := [t1, t2, ':', t3, t4]
            if tail.isEmpty then
              if ws3.length < 2 then none
              else some (dateStr, timeStr, amountStr, [ws3.getLast!])
            else some (dateStr, timeStr, amountStr, tail)
      | _ => none
  | _ => none

/-- Leftmost match of the transaction pattern in a line
(JavaScript `line.match(transactionPattern)`). -/
def matchTx : Str → Option (Str × Str × Str × Str)
  | [] => none
  | c :: cs =>
    match tryTxAt (c :: cs) with
    | some r => some r
    | none => matchTx cs

/-- Date parser `parseTransactionDate` of the pdfjs variant: split the
date at `/`, two-digit years pivot at 50, Buddhist-Era years above 2500
are shifted; time is split at `:`. -/
def parseTransactionDate (dateStr timeStr : Str) : Option JSDate :=
  let parts := splitOnCh '/' dateStr
  if parts.length != 3 then none
  else
    let day := parseIntOr0 (parts.getD 0 [])
    let month := parseIntOr0 (parts.getD 1 [])
    let year := parseIntOr0 (parts.getD 2 [])
    let year := if year < 100 then (if 50 < year then 1900 + year else 2000 + year) else year
    let year := if 2500 < year then year - 543 else year
    let tp := splitOnCh ':' timeStr
    let hour := parseIntOr0 (tp.getD 0 [])
    let minute := parseIntOr0 (tp.getD 1 [])
    some ⟨year, month - 1, day, hour, minute, 0⟩

/-- Case-insensitive containment of any of a list of literal
alternatives (a JavaScript `/lit1|lit2|…/i.test(text)`). -/
def ciAny (text : Str) (pats : List Str) : Bool :=
  pats.any (fun p => includesL (jsLower text) (jsLower p))

/-- Test of `/K\s*PLUS|K\+|KPLUS/i`: a `k` followed by optional
whitespace then `plus`, or a literal `k+` (the `KPLUS` alternative is the
zero-whitespace case of the first). -/
def testKPlus (text : Str) : Bool :=
  let l := jsLower text
  anySuffix l || includesL l (str "k+")
where
  /-- Scan every suffix for `k` `\s*` `plus`. -/
  anySuffix : Str → Bool
    | [] => false
    | 'k' :: r =>
      startsWithL (r.dropWhile isJsWs) (str "plus") || anySuffix r
    | _ :: r => anySuffix r

/-- Channel and item-type extraction `parseTransactionDetails` of the
pdfjs variant: first matching pattern in each table wins; description is
the first 200 characters of the remainder, trimmed. -/
def parseTransactionDetails (text : Str) : Str × Str × Str :=
  let channel :=
    if testKPlus text then str "K PLUS"
    else if ciAny text [str "K-App"] then str "K-App"
    else if ciAny text [str "ATM"] then str "ATM"
    else if ciAny text [str "EDC", str "เครื่องรูด"] then str "EDC"
    else if ciAny text [str "Internet", str "Online"] then str "Internet Banking"
    else if ciAny text [str "Counter", str "เคาน์เตอร์"] then str "Counter"
    else if ciAny text [str "Mobile"] then str "Mobile Banking"
    else str "Other"
  let itemType :=
    if ciAny text [str "โอน", str "Transfer"] then str "โอนเงิน"
    else if ciAny text [str "ชำระ", str "Payment", str "Pay"] then str "ชำระเงิน"
    else if ciAny text [str "ถอน", str "Withdraw"] then str "ถอนเงิน"
    else if ciAny text [str "ซื้อ", str "Purchase"] then str "ซื้อสินค้า"
    else if ciAny text [str "จ่าย"] then str "จ่ายเงิน"
    else if ciAny text [str "QR"] then str "QR Payment"
    else if ciAny text [str "PromptPay", str "พร้อมเพย์"] then str "PromptPay"
    else str "รายจ่าย"
  (itemType, channel, jsTrim (text.take 200))

/-- Per-line loop of `parseTransactions` of the pdfjs variant, front to
back: a pattern match counts as a raw row; a `NaN` amount is skipped; an
inflow keyword in the remainder is counted as filtered out; a failed
date parse is skipped; everything else becomes a transaction. -/
def parseTransactionsGo : List Str → List ParsedTransaction × Nat × Nat
  | [] => ([], 0, 0)
  | l :: rest =>
    let (txs, raw, filt) := parseTransactionsGo rest
    let line := jsTrim l
    if line.isEmpty then (txs, raw, filt)
    else
      match matchTx line with
      | none => (txs, raw, filt)
      | some (dateStr, timeStr, amountStr, restStr) =>
        match parseFloatJS (amountStr.filter (fun c => !(c == ','))) with
        | none => (txs, raw + 1, filt)
        | some amount =>
          if INFLOW_PATTERNS.any
              (fun pattern => includesL (jsLower restStr) (jsLower pattern)) then
            (txs, raw + 1, filt + 1)
          else
            match parseTransactionDate dateStr timeStr with
            | none => (txs, raw + 1, filt)
            | some dateTime =>
              let (itemType, channel, description) :=
                parseTransactionDetails restStr
              ({ dateTime, amount, itemType, channel,
                 descriptionRaw := description,
                 fingerprint := generateTransactionFingerprint dateTime amount
                   channel description } :: txs, raw + 1, filt)

/-- Descending-timestamp comparison of the pdfjs variant's final sort. -/
def newestFirst (a b : ParsedTransaction) : Bool :=
  decide (b.dateTime.getTime ≤ a.dateTime.getTime)

/-- Row extractor `parseTransactions` of the pdfjs variant
(`transactions` sorted newest first, plus the two counters). -/
def parseTransactions (text : Str) : List ParsedTransaction × Nat × Nat :=
  let (transactions, rawRowCount, filteredOutCount) :=
    parseTransactionsGo (splitLinesAny text)
  (transactions.mergeSort newestFirst, rawRowCount, filteredOutCount)

end PdfjsParser

namespace KBankParser

/-- Attempt of `(\d{1,2}[\/\-]\d{1,2}[\/\-]\d{4})` at the start of the
string: the two short groups are pinned to their full digit runs (at
most two, since a longer run leaves a digit where the separator must
be), the year takes the first four digits of a run of at least four.
Returns the matched substring and the remainder after it. -/
def tryDateAt (s : Str) : Option (Str × Str) :=
  let (r1, s1) := takeDigits s
  if r1.length < 1 || 2 < r1.length then none else
  match s1 with
  | c1 :: s2 =>
    if !isDateSep c1 then none else
    let (r2, s3) := takeDigits s2
    if r2.length < 1 || 2 < r2.length then none else
    match s3 with
    | c2 :: s4 =>
      if !isDateSep c2 then none else
      let (r3, s5) := takeDigits s4
      if r3.length < 4 then none
      else some (r1 ++ c1 :: r2 ++ c2 :: r3.take 4, r3.drop 4 ++ s5)
    | [] => none
  | [] => none

/-- Attempt of `(\d{1,2}:\d{2}(?::\d{2})?)` at the start of the string,
returning the matched substring and the remainder. -/
def tryTimeAt (s : Str) : Option (Str × Str) :=
  let (r1, s1) := takeDigits s
  if r1.length < 1 || 2 < r1.length then none else
  match s1 with
  | ':' :: s2 =>
    let (r2, s3) := takeDigits s2
    if r2.length < 2 then none else
    if r2.length == 2 then
      match s3 with
      | ':' :: s4 =>
        let (r3, s5) := takeDigits s4
        if 2 ≤ r3.length then
          some (r1 ++ ':' :: r2 ++ ':' :: r3.take 2, r3.drop 2 ++ s5)
        else some (r1 ++ ':' :: r2, s3)
      | _ => some (r1 ++ ':' :: r2, s3)
    else some (r1 ++ ':' :: r2.take 2, r2.drop 2 ++ s3)
  | _ => none

/-- Attempt of `([\d,]+\.\d{2})` at the start of the string, returning
the matched substring and the remainder. -/
def tryAmountAt (s : Str) : Option (Str × Str) :=
  let r1 := s.takeWhile (fun c => isDigitCh c || c == ',')
  let s1 := s.dropWhile (fun c => isDigitCh c || c == ',')
  if r1.isEmpty then none else
  match s1 with
  | '.' :: s2 =>
    let (r2, s3) := takeDigits s2
    if 2 ≤ r2.length then some (r1 ++ '.' :: r2.take 2, r2.drop 2 ++ s3)
    else none
  | _ => none

/-- Leftmost match of a pattern attempt, returning the matched
substring (JavaScript `line.match(pattern)` group 1). -/
def findFirst (tryAt : Str → Option (Str × Str)) : Str → Option Str
  | [] => none
  | c :: cs =>
    match tryAt (c :: cs) with
    | some (m, _) => some m
    | none => findFirst tryAt cs

/-- Global collection of all non-overlapping matches, left to right
(JavaScript `while (pattern.exec(line))`), fuel-driven on the string
length. -/
def allMatchesGo (tryAt : Str → Option (Str × Str)) :
    Nat → Str → List Str
  | 0, _ => []
  | _, [] => []
  | fuel + 1, c :: cs =>
    match tryAt (c :: cs) with
    | some (m, rest) => m :: allMatchesGo tryAt fuel rest
    | none => allMatchesGo tryAt fuel cs

/-- All matches of a pattern in a line. -/
def allMatches (tryAt : Str → Option (Str × Str)) (s : Str) : List Str :=
  allMatchesGo tryAt s.length s

/-- Global removal of all non-overlapping matches, left to right
(JavaScript `replace(pattern, '')` with the `g` flag), fuel-driven. -/
def removeAllGo (tryAt : Str → Option (Str × Str)) : Nat → Str → Str
  | 0, s => s
  | _, [] => []
  | fuel + 1, c :: cs =>
    match tryAt (c :: cs) with
    | some (_, rest) => removeAllGo tryAt fuel rest
    | none => c :: removeAllGo tryAt fuel cs

/-- Remove all matches of a pattern from a line. -/
def removeAll (tryAt : Str → Option (Str × Str)) (s : Str) : Str :=
  removeAllGo tryAt s.length s

/-- Channel and Thai item-type detection `extractChannelAndType` of
`kbank-parser.ts` (first matching keyword group wins). -/
def extractChannelAndType (line : Str) : Str × Str :=
  let upperLine := jsUpper line
  let channel :=
    if includesL upperLine (str "K PLUS") || includesL upperLine (str "KPLUS") then
      str "K PLUS"
    else if includesL upperLine (str "EDC") || includesL upperLine (str "K SHOP") then
      str "EDC/K SHOP"
    else if includesL upperLine (str "DIRECT DEBIT") then str "Online Direct Debit"
    else if includesL upperLine (str "INTERNET") || includesL upperLine (str "MOBILE") then
      str "Internet/Mobile"
    else if includesL upperLine (str "ATM") then str "ATM"
    else if includesL upperLine (str "COUNTER") || includesL upperLine (str "BRANCH") then
      str "Counter"
    else if includesL upperLine (str "AUTO") && includesL upperLine (str "DEBIT") then
      str "Auto Debit"
    else str "Other"
  let itemType :=
    if includesL line (str "โอนเงิน") || includesL line (str "โอน") then str "โอนเงิน"
    else if includesL line (str "ชำระเงิน") || includesL line (str "ชำระ") then str "ชำระเงิน"
    else if includesL line (str "หักบัญชี") then str "หักบัญชี"
    else if includesL line (str "ถอนเงิน") || includesL line (str "ถอน") then str "ถอนเงิน"
    else if includesL line (str "ซื้อสินค้า") || includesL line (str "ซื้อ") then str "ซื้อสินค้า"
    else if includesL line (str "จ่ายบิล") || includesL line (str "จ่าย") then str "จ่ายบิล"
    else str "Other"
  (channel, itemType)

/-- Description cleanup `cleanDescription` of `kbank-parser.ts`: strip
dates, times and amounts, trim, collapse whitespace, cap at 500
characters, fall back to a placeholder. -/
def cleanDescription (line : Str) : Str :=
  let d := removeAll tryDateAt line
  let d := removeAll tryTimeAt d
  let d := removeAll tryAmountAt d
  let d := jsTrim d
  let d := jsTrim (collapseWs d)
  let d := if 500 < d.length then d.take 500 else d
  if d.isEmpty then str "No description" else d

/-- Header and balance row filter `isHeaderOrBalanceRow` of
`kbank-parser.ts` (only short lines containing a skip keyword). -/
def isHeaderOrBalanceRow (line : Str) : Bool :=
  [str "ยอดยกมา", str "ยอดยกไป", str "Statement", str "Page",
   str "รายการเดินบัญชี", str "Account Statement", str "เลขที่บัญชี",
   str "Account No", str "ชื่อบัญชี", str "Account Name", str "สาขา",
   str "Branch", str "วันที่", str "Date", str "รายการ", str "Description",
   str "จำนวนเงิน", str "Amount", str "คงเหลือ", str "Balance"].any
    (fun pattern => includesL line pattern && line.length < 100)

/-- Inflow row filter `isInflowRow` of `kbank-parser.ts`: a
case-sensitive containment of each keyword or its uppercased form. -/
def isInflowRow (line : Str) : Bool :=
  INFLOW_PATTERNS.any
    (fun pattern => includesL line (jsUpper pattern) || includesL line pattern)

/-- Expense check `isExpenseTransaction` of `kbank-parser.ts`. -/
def isExpenseTransaction (line : Str) (transaction : ParsedTransaction) :
    Bool :=
  if includesL line (str "รับ") && !includesL line (str "รับชำระ") then false
  else if includesL line (str "ฝาก") && !includesL line (str "ฝากประจำ") then false
  else if includesL line (str "คืนเงิน") || includesL line (str "REFUND") then false
  else if includesL line (str "ดอกเบี้ย") then false
  else decide (0 < transaction.amount)

/-- Single-line parser `parseTransactionLine` of `kbank-parser.ts`. -/
def parseTransactionLine (line : Str) (currentDate currentTime : Option Str) :
    Option ParsedTransaction :=
  let lineDate :=
    match findFirst tryDateAt line with
    | some m => some m
    | none => currentDate
  match lineDate with
  | none => none
  | some lineDate =>
    let lineTime :=
      match findFirst tryTimeAt line with
      | some m => some m
      | none => currentTime
    let amounts := (allMatches tryAmountAt line).filterMap
      (fun m =>
        match parseFloatJS (m.filter (fun c => !(c == ','))) with
        | some amount => if 0 < amount then some amount else none
        | none => none)
    if amounts.isEmpty then none else
    let expenseAmount := amounts.headD 0
    if expenseAmount < 1 then none else
    match parseThaiDate lineDate lineTime with
    | .error _ => none
    | .ok dateTime =>
      let (channel, itemType) := extractChannelAndType line
      let description := cleanDescription line
      let fp := generateTransactionFingerprint dateTime expenseAmount
        channel description
      some ⟨dateTime, expenseAmount, itemType, channel, description, fp⟩

/-- Line loop of `parseStatementText` of `kbank-parser.ts`, carrying the
running `currentDate`/`currentTime` state; note that no sorting step
follows — transactions are emitted in document order. -/
def parseStatementGo (currentDate currentTime : Option Str) :
    List Str → List ParsedTransaction
  | [] => []
  | line :: rest =>
    if isHeaderOrBalanceRow line then parseStatementGo currentDate currentTime rest
    else if isInflowRow line then parseStatementGo currentDate currentTime rest
    else
      let currentDate :=
        match findFirst tryDateAt line with
        | some m => some m
        | none => currentDate
      let currentTime :=
        match findFirst tryTimeAt line with
        | some m => some m
        | none => currentTime
      match parseTransactionLine line currentDate currentTime with
      | some transaction =>
        if isExpenseTransaction line transaction then
          transaction :: parseStatementGo currentDate currentTime rest
        else parseStatementGo currentDate currentTime rest
      | none => parseStatementGo currentDate currentTime rest

/-- Text-to-transactions parser `parseStatementText` of
`kbank-parser.ts`. -/
def parseStatementText (text : Str) : List ParsedTransaction :=
  parseStatementGo none none
    (((splitOnCh '\n' text).map jsTrim).filter (fun line => !line.isEmpty))

/-- Exactly `n` leading digits or failure. -/
def takeNDigits (n : Nat) (s : Str) : Option (Str × Str) :=
  let pre := s.take n
  if pre.length == n && pre.all isDigitCh then some (pre, s.drop n) else none

/-- Optionally consume one `[\-\s]` separator. -/
def optSep (s : Str) : Str × Str :=
  match s with
  | c :: cs => if c == '-' || isJsWs c then ([c], cs) else ([], s)
  | [] => ([], [])

/-- Capture tail of the labelled account-number pattern:
`[:\s]*(\d[\d\-\s]+\d)` after a matched label of `labelLen` characters. -/
def tryLabelCapture (s : Str) (labelLen : Nat) : Option Str :=
  let r := (s.drop labelLen).dropWhile (fun c => c == ':' || isJsWs c)
  match r with
  | c :: cs =>
    if !isDigitCh c then none else
    let run := cs.takeWhile (fun ch => isDigitCh ch || ch == '-' || isJsWs ch)
    let k := run.length - (run.reverse.takeWhile (fun ch => !isDigitCh ch)).length
    if 2 ≤ k then some (c :: run.take k) else none
  | [] => none

/-- Attempt of `(?:เลขที่บัญชี|Account No\.?|Account Number)[:\s]*(\d[\d\-\s]+\d)`
(case-insensitive) at the start of the string, with the regex's
alternation and optional-dot backtracking. -/
def tryAcct1At (s : Str) : Option Str :=
  let ls := jsLower s
  if startsWithL ls (str "เลขที่บัญชี") then
    tryLabelCapture s (str "เลขที่บัญชี").length
  else if startsWithL ls (str "account no") then
    let base := (str "account no").length
    let withDot :=
      match s.drop base with
      | '.' :: _ => tryLabelCapture s (base + 1)
      | _ => none
    match withDot with
    | some m => some m
    | none =>
      match tryLabelCapture s base with
      | some m => some m
      | none =>
        if startsWithL ls (str "account number") then
          tryLabelCapture s (str "account number").length
        else none
  else none

/-- Attempt of `(\d{3}[\-\s]?\d[\-\s]?\d{5}[\-\s]?\d)` at the start of
the string. -/
def tryAcct2At (s : Str) : Option Str :=
  match takeNDigits 3 s with
  | none => none
  | some (g1, s) =>
    let (s1, s) := optSep s
    match takeNDigits 1 s with
    | none => none
    | some (g2, s) =>
      let (s2, s) := optSep s
      match takeNDigits 5 s with
      | none => none
      | some (g3, s) =>
        let (s3, s) := optSep s
        match takeNDigits 1 s with
        | none => none
        | some (g4, _) => some (g1 ++ s1 ++ g2 ++ s2 ++ g3 ++ s3 ++ g4)

/-- Leftmost successful capture of a single-capture attempt. -/
def scanFor (tryAt : Str → Option Str) : Str → Option Str
  | [] => none
  | c :: cs =>
    match tryAt (c :: cs) with
    | some m => some m
    | none => scanFor tryAt cs

/-- Account-number extraction `extractAccountNumber` of
`kbank-parser.ts`: first pattern that matches wins; whitespace and
dashes are stripped from the capture. -/
def extractAccountNumber (text : Str) : Option Str :=
  match scanFor tryAcct1At text with
  | some m => some (m.filter (fun c => !(isJsWs c || c == '-')))
  | none =>
    match scanFor tryAcct2At text with
    | some m => some (m.filter (fun c => !(isJsWs c || c == '-')))
    | none => none

/-- Statement-month mode `detectStatementMonthFromDates` of
`kbank-parser.ts`. -/
def detectStatementMonthFromDates (dates : List JSDate) : Option Str :=
  if dates.isEmpty then none
  else
    let maxMonth := monthMode (dates.map monthKey)
    if maxMonth.isEmpty then none else some maxMonth

/-- Post-extraction logic of `parseKBankStatement` of `kbank-parser.ts`
(the PDF byte decoding is the external text-extraction collaborator;
this models everything from the extracted text on).  Note the literal
`filteredOutCount: 0` of the success result. -/
def parseKBankStatementFromText (text : Str) : ParseResult :=
  if (jsTrim text).length < 100 then
    { success := false, transactions := [], statementMonth := none,
      accountNumber := none,
      error := some (str "Could not extract text from PDF. This may be a scanned/image-based document."),
      rawRowCount := 0, filteredOutCount := 0 }
  else
    let transactions := parseStatementText text
    if transactions.isEmpty then
      { success := false, transactions := [], statementMonth := none,
        accountNumber := none,
        error := some (str "No expense transactions found in this statement. Please ensure this is a KBank monthly statement."),
        rawRowCount := 0, filteredOutCount := 0 }
    else
      let dates := transactions.map (fun t => t.dateTime)
      let statementMonth := detectStatementMonthFromDates dates
      let accountNumber := extractAccountNumber text
      { success := true, transactions, statementMonth, accountNumber,
        error := none, rawRowCount := transactions.length,
        filteredOutCount := 0 }

end KBankParser

namespace Categorization

/-- Match modes of `src/lib/categorization.ts` `MatchType`. -/
inductive MatchType where
  | CONTAINS
  | STARTS_WITH
  | ENDS_WITH
  | EXACT
  | REGEX
deriving DecidableEq, Repr

/-- Name of a match mode (for the `matchedRule` explanation string). -/
def MatchType.toStr : MatchType → Str
  | .CONTAINS => str "CONTAINS"
  | .STARTS_WITH => str "STARTS_WITH"
  | .ENDS_WITH => str "ENDS_WITH"
  | .EXACT => str "EXACT"
  | .REGEX => str "REGEX"

/-- Category record (the fields the engine reads). -/
structure Category where
  id : Str
  name : Str
deriving DecidableEq, Repr

/-- Category rule record, as loaded by the engine's Prisma query
(`enabled` and `createdAt` are stored so that snapshot-validity and
precedence claims can be stated; the engine itself never reads
`createdAt`). -/
structure Rule where
  id : Str
  pattern : Str
  matchType : MatchType
  channel : Option Str
  priority : Int
  enabled : Bool
  createdAt : Int
  category : Category
deriving DecidableEq, Repr

/-- Provenance tag of a categorization decision. -/
inductive MatchedBy where
  | RULE
  | HINT
  | NONE
deriving DecidableEq, Repr

/-- Result record `CategorizeResult`. -/
structure CategorizeResult where
  categoryId : Option Str
  categoryName : Option Str
  matchedBy : MatchedBy
  matchedRule : Option Str
deriving DecidableEq, Repr

/-- External JavaScript regular-expression facility: compiling a pattern
(with the `i` flag) either fails — `none`, the `catch` branch — or
yields a match predicate on the subject string. -/
abbrev RegexCompiler := Str → Option (Str → Bool)

/-- Explanation string `` `${rule.matchType}: "${rule.pattern}"` ``. -/
def ruleExplanation (rule : Rule) : Str :=
  rule.matchType.toStr ++ str ": " ++ '"' :: rule.pattern ++ ['"']

/-- Result of a rule match. -/
def ruleResult (rule : Rule) : CategorizeResult :=
  { categoryId := some rule.category.id,
    categoryName := some rule.category.name,
    matchedBy := MatchedBy.RULE,
    matchedRule := some (ruleExplanation rule) }

/-- The `switch (rule.matchType)` of `matchUserRules` in
`categorization.ts` (single-row form): `pattern` is the lowercased rule
pattern. -/
def ruleSwitchSingle (compile : RegexCompiler)
    (normalizedDesc pattern : Str) : MatchType → Bool
  | .CONTAINS => includesL normalizedDesc pattern
  | .STARTS_WITH => startsWithL normalizedDesc pattern
  | .ENDS_WITH => endsWithL normalizedDesc pattern
  | .EXACT => normalizedDesc == pattern
  | .REGEX =>
    match compile pattern with
    | some test => test normalizedDesc
    | none => false

/-- The rule loop of `matchUserRules` (single-row form): skip a rule
whose channel filter is set but not contained in the transaction's
channel, otherwise first pattern match wins. -/
def matchRulesLoop (compile : RegexCompiler)
    (normalizedDesc normalizedChannel : Str) : List Rule → Option CategorizeResult
  | [] => none
  | rule :: rest =>
    let channelSkip :=
      match rule.channel with
      | some ch => !includesL normalizedChannel (jsLower ch)
      | none => false
    if channelSkip then matchRulesLoop compile normalizedDesc normalizedChannel rest
    else if ruleSwitchSingle compile normalizedDesc (jsLower rule.pattern)
        rule.matchType then
      some (ruleResult rule)
    else matchRulesLoop compile normalizedDesc normalizedChannel rest

/-- Rule matcher `matchUserRules` of `categorization.ts`; the rule list
is the snapshot returned by the engine's query (`enabled: true`,
ordered by descending priority). -/
def matchUserRules (compile : RegexCompiler) (rules : List Rule)
    (description channel : Str) : Option CategorizeResult :=
  matchRulesLoop compile (jsLower (normalizeDescription description))
    (jsLower channel) rules

/-- JavaScript `new Map(categories.map(c => [c.name, c])).get(name)`:
the last entry with the name wins. -/
def categoryMapGet (categories : List Category) (name : Str) :
    Option Category :=
  categories.reverse.find? (fun c => c.name == name)

/-- Result of a hint match. -/
def hintResult (category : Category) (keyword : Str) : CategorizeResult :=
  { categoryId := some category.id,
    categoryName := some category.name,
    matchedBy := MatchedBy.HINT,
    matchedRule := some (str "keyword: " ++ '"' :: keyword ++ ['"']) }

/-- The hint-table loop of `matchBuiltInHints` (single-row form):
`normalizedDesc` is the uppercased normalized description; a hint
category participates only if the family owns a category of that name. -/
def hintsLoop (normalizedDesc : Str) (categories : List Category) :
    List (Str × List Str) → Option CategorizeResult
  | [] => none
  | (categoryName, keywords) :: rest =>
    match categoryMapGet categories categoryName with
    | none => hintsLoop normalizedDesc categories rest
    | some category =>
      match keywords.find?
          (fun keyword => includesL normalizedDesc (jsUpper keyword)) with
      | some keyword => some (hintResult category keyword)
      | none => hintsLoop normalizedDesc categories rest

/-- Hint matcher `matchBuiltInHints` of `categorization.ts`; the
category list is the snapshot of the family's active categories. -/
def matchBuiltInHints (categories : List Category) (description : Str) :
    Option CategorizeResult :=
  hintsLoop (jsUpper (normalizeDescription description)) categories
    CHANNEL_CATEGORY_HINTS

/-- The NONE result. -/
def noneResult : CategorizeResult :=
  { categoryId := none, categoryName := none, matchedBy := MatchedBy.NONE,
    matchedRule := none }

/-- Single-row categorizer `categorizeTransaction` of
`categorization.ts`: user rules, then built-in hints, then NONE.  The
`familyId` argument of the source selects the two snapshots, which are
passed here directly; `itemType` is accepted and, as in the source,
never read. -/
def categorizeTransaction (compile : RegexCompiler) (rules : List Rule)
    (categories : List Category) (description channel itemType : Str) :
    CategorizeResult :=
  match matchUserRules compile rules description channel with
  | some ruleMatch => ruleMatch
  | none =>
    match matchBuiltInHints categories description with
    | some hintMatch => hintMatch
    | none => noneResult

/-- Transaction input of the batch form. -/
structure TxInput where
  id : Option Str
  description : Str
  channel : Str
  itemType : Str
deriving DecidableEq, Repr

/-- The inlined `switch (rule.matchType)` of `categorizeTransactions`
(batch form; textually duplicated in the source, so embedded
separately). -/
def ruleSwitchBatch (compile : RegexCompiler)
    (normalizedDesc pattern : Str) : MatchType → Bool
  | .CONTAINS => includesL normalizedDesc pattern
  | .STARTS_WITH => startsWithL normalizedDesc pattern
  | .ENDS_WITH => endsWithL normalizedDesc pattern
  | .EXACT => normalizedDesc == pattern
  | .REGEX =>
    match compile pattern with
    | some test => test normalizedDesc
    | none => false

/-- The inlined rule loop of `categorizeTransactions` (batch form). -/
def batchRuleLoop (compile : RegexCompiler)
    (normalizedDesc normalizedChannel : Str) : List Rule → Option CategorizeResult
  | [] => none
  | rule :: rest =>
    let channelSkip :=
      match rule.channel with
      | some ch => !includesL normalizedChannel (jsLower ch)
      | none => false
    if channelSkip then batchRuleLoop compile normalizedDesc normalizedChannel rest
    else if ruleSwitchBatch compile normalizedDesc (jsLower rule.pattern)
        rule.matchType then
      some (ruleResult rule)
    else batchRuleLoop compile normalizedDesc normalizedChannel rest

/-- The inlined hint loop of `categorizeTransactions` (batch form, with
its `matched` flag and `break`s resolved to first-match). -/
def batchHintLoop (upperDesc : Str) (categories : List Category) :
    List (Str × List Str) → Option CategorizeResult
  | [] => none
  | (categoryName, keywords) :: rest =>
    match categoryMapGet categories categoryName with
    | none => batchHintLoop upperDesc categories rest
    | some category =>
      match keywords.find?
          (fun keyword => includesL upperDesc (jsUpper keyword)) with
      | some keyword => some (hintResult category keyword)
      | none => batchHintLoop upperDesc categories rest

/-- Per-iteration body of the batch loop: note the batch form lowercases
the normalized description (`normalizeDescription(tx.description)
.toLowerCase()`) and uppercases that for hints, where the single-row
form uppercases the normalized description directly. -/
def categorizeRow (compile : RegexCompiler) (rules : List Rule)
    (categories : List Category) (tx : TxInput) : CategorizeResult :=
  let normalizedDesc := jsLower (normalizeDescription tx.description)
  let normalizedChannel := jsLower tx.channel
  match batchRuleLoop compile normalizedDesc normalizedChannel rules with
  | some ruleMatch => ruleMatch
  | none =>
    let upperDesc := jsUpper normalizedDesc
    match batchHintLoop upperDesc categories CHANNEL_CATEGORY_HINTS with
    | some hintMatch => hintMatch
    | none => noneResult

/-- Index-tagged batch loop (the `results.set(i, …)` map entries, in
insertion order). -/
def categorizeBatchGo (compile : RegexCompiler) (rules : List Rule)
    (categories : List Category) : Nat → List TxInput →
    List (Nat × CategorizeResult)
  | _, [] => []
  | i, tx :: rest =>
    (i, categorizeRow compile rules categories tx) ::
      categorizeBatchGo compile rules categories (i + 1) rest

/-- Batch categorizer `categorizeTransactions` of `categorization.ts`:
one result per transaction index, computed against the same one-shot
rule/category snapshot. -/
def categorizeTransactions (compile : RegexCompiler) (rules : List Rule)
    (categories : List Category) (transactions : List TxInput) :
    List (Nat × CategorizeResult) :=
  categorizeBatchGo compile rules categories 0 transactions

end Categorization

/-!
Reference (specification-side) definitions used to state the claims.
-/

/-- Descending-timestamp sortedness of a transaction list (the spec's
"sorted by timestamp, descending"). -/
def SortedNewestFirst (transactions : List ParsedTransaction) : Prop :=
  List.Pairwise
    (fun a b => b.dateTime.getTime ≤ a.dateTime.getTime) transactions

/-- Canonical form of a description under the claim C2 noise relation:
two descriptions "differ only in letter case, whitespace runs, or
characters outside the Thai-script and ASCII-alphanumeric ranges" iff
they agree after lowercasing, deleting the out-of-range characters,
collapsing whitespace runs and trimming.  (Note the deletion happens
before the collapse here, unlike in the implementation's
`normalizeDescription`.) -/
def specNoiseCanon (s : Str) : Str :=
  jsTrim (collapseWs ((jsLower s).filter keepCh))

/-- Case-insensitive inflow-keyword containment of a description (the
spec's "description contains (case-insensitively) any keyword of the
configured inflow pattern list"). -/
def inflowKeywordIn (s : Str) : Bool :=
  INFLOW_PATTERNS.any (fun pattern => includesL (jsLower s) (jsLower pattern))

/-- A categorization rule matches a transaction (reference reading of
the engine's per-rule test): the optional channel filter passes and the
pattern matches the normalized description under the declared mode. -/
def Categorization.ruleMatches (compile : Categorization.RegexCompiler)
    (normalizedDesc normalizedChannel : Str) (rule : Categorization.Rule) :
    Bool :=
  (match rule.channel with
   | some ch => includesL normalizedChannel (jsLower ch)
   | none => true) &&
  Categorization.ruleSwitchSingle compile normalizedDesc (jsLower rule.pattern)
    rule.matchType

/-- Inflow classification of one pdfjs input line (reference count
predicate): the line matches the transaction pattern, its amount parses,
and its remainder contains an inflow keyword case-insensitively. -/
def pdfjsLineInflow (l : Str) : Bool :=
  match PdfjsParser.matchTx (jsTrim l) with
  | some (_, _, amountStr, restStr) =>
    (parseFloatJS (amountStr.filter (fun c => !(c == ',')))).isSome &&
      inflowKeywordIn restStr
  | none => false

/-- Number of inflow-classified rows of a pdfjs input text. -/
def pdfjsInflowCount (text : Str) : Nat :=
  (splitLinesAny text).countP pdfjsLineInflow

/-- Row outcome of one CSV data line (reference count predicate):
trimmed, parsed by the bank's row parser. -/
def csvParsedRow (bank : CsvParser.Bank) (l : Str) :
    Option CsvParser.ParsedRow :=
  let line := jsTrim l
  if line.isEmpty then none
  else
    match bank with
    | CsvParser.Bank.kbank => CsvParser.parseKBankCsvRow line
    | CsvParser.Bank.scb => CsvParser.parseSCBCsvRow line

/-- Number of inflow-classified rows among CSV data lines. -/
def csvInflowCount (bank : CsvParser.Bank) (lines : List Str) : Nat :=
  lines.countP (fun l =>
    match csvParsedRow bank l with
    | some parsed => CsvParser.rowIsInflow parsed
    | none => false)

/-- The data lines (everything after the header) that
`parseCsvStatement` iterates over. -/
def csvDataLines (fileContent : Str) : List Str :=
  (((splitLinesCrLf fileContent).filter
    (fun line => !(jsTrim line).isEmpty))).drop 1

/-!
Supporting lemmas.
-/

/-- Valid-range round trip of `Char.ofNat`. -/
theorem toNat_ofNat_small {n : Nat} (h : n < 55296) :
    (Char.ofNat n).toNat = n := by
  unfold Char.ofNat
  rw [dif_pos (Or.inl h)]
  rfl

/-- Lowercasing is idempotent on characters. -/
theorem lowerCh_lowerCh (c : Char) : lowerCh (lowerCh c) = lowerCh c := by
  unfold lowerCh
  split
  · next h =>
    simp only [Bool.and_eq_true, decide_eq_true_eq] at h
    have hv : (Char.ofNat (c.toNat + 32)).toNat = c.toNat + 32 :=
      toNat_ofNat_small (by omega)
    rw [if_neg]
    simp only [Bool.and_eq_true, decide_eq_true_eq, hv, not_and]
    omega
  · rfl

/-- Characters of a whitespace-collapsed string come from the original
string or are the inserted single space. -/
theorem mem_collapseWsAux {c : Char} :
    ∀ (b : Bool) (l : Str), c ∈ collapseWsAux b l → c = ' ' ∨ c ∈ l := by
  intro b l
  induction l generalizing b with
  | nil => intro h; simp [collapseWsAux] at h
  | cons x xs ih =>
    intro h
    unfold collapseWsAux at h
    split at h
    · split at h
      · rcases ih _ h with h' | h'
        · exact Or.inl h'
        · exact Or.inr (List.mem_cons_of_mem _ h')
      · rcases List.mem_cons.mp h with h' | h'
        · exact Or.inl h'
        · rcases ih _ h' with h'' | h''
          · exact Or.inl h''
          · exact Or.inr (List.mem_cons_of_mem _ h'')
    · rcases List.mem_cons.mp h with h' | h'
      · exact Or.inr (h' ▸ List.mem_cons_self x xs)
      · rcases ih _ h' with h'' | h''
        · exact Or.inl h''
        · exact Or.inr (List.mem_cons_of_mem _ h'')

/-- Characters of a trimmed string come from the original string. -/
theorem mem_jsTrim {c : Char} {l : Str} (h : c ∈ jsTrim l) : c ∈ l := by
  unfold jsTrim at h
  rw [List.mem_reverse] at h
  have h1 := (List.dropWhile_sublist isJsWs).mem h
  rw [List.mem_reverse] at h1
  exact (List.dropWhile_sublist isJsWs).mem h1

/-- The fingerprint normalizer produces a string that lowercasing leaves
unchanged (its letters are already lowercase). -/
theorem jsLower_normalizeDescription (d : Str) :
    jsLower (normalizeDescription d) = normalizeDescription d := by
  unfold jsLower
  have : ∀ c ∈ normalizeDescription d, lowerCh c = c := by
    intro c hc
    unfold normalizeDescription at hc
    have hc1 : c ∈ jsTrim (collapseWs (jsLower d)) := List.mem_of_mem_filter hc
    have hc2 := mem_jsTrim hc1
    rcases mem_collapseWsAux _ _ hc2 with h | h
    · subst h; rfl
    · unfold jsLower at h
      rcases List.mem_map.mp h with ⟨a, _, rfl⟩
      exact lowerCh_lowerCh a
  rw [show (normalizeDescription d).map lowerCh =
    (normalizeDescription d).map id from List.map_congr_left this,
    List.map_id]

namespace Categorization

/-- The two textually duplicated `switch (rule.matchType)` blocks agree. -/
theorem ruleSwitchBatch_eq (compile : RegexCompiler) (nd p : Str)
    (mt : MatchType) :
    ruleSwitchBatch compile nd p mt = ruleSwitchSingle compile nd p mt := by
  cases mt <;> rfl

/-- The batch rule loop agrees with the single-row rule loop. -/
theorem batchRuleLoop_eq (compile : RegexCompiler) (nd nc : Str) :
    ∀ rules, batchRuleLoop compile nd nc rules = matchRulesLoop compile nd nc rules
  | [] => rfl
  | rule :: rest => by
    unfold batchRuleLoop matchRulesLoop
    rw [ruleSwitchBatch_eq, batchRuleLoop_eq compile nd nc rest]

/-- The batch hint loop agrees with the single-row hint loop. -/
theorem batchHintLoop_eq (u : Str) (categories : List Category) :
    ∀ entries, batchHintLoop u categories entries = hintsLoop u categories entries
  | [] => rfl
  | _ :: rest => by
    unfold batchHintLoop hintsLoop
    rw [batchHintLoop_eq u categories rest]

/-- One batch iteration computes exactly the single-row result (the
extra `toLowerCase` of the batch form is the identity on the normalized
description). -/
theorem categorizeRow_eq (compile : RegexCompiler) (rules : List Rule)
    (categories : List Category) (tx : TxInput) :
    categorizeRow compile rules categories tx =
      categorizeTransaction compile rules categories tx.description tx.channel
        tx.itemType := by
  unfold categorizeRow categorizeTransaction matchUserRules matchBuiltInHints
  simp only [jsLower_normalizeDescription, batchRuleLoop_eq, batchHintLoop_eq]

/-- Looking up index `i` in the batch output starting at `start`. -/
theorem lookup_categorizeBatchGo (compile : RegexCompiler) (rules : List Rule)
    (categories : List Category) :
    ∀ (txs : List TxInput) (start i : Nat) (tx : TxInput),
      txs.get? i = some tx →
      List.lookup (start + i)
        (categorizeBatchGo compile rules categories start txs) =
        some (categorizeRow compile rules categories tx) := by
  intro txs
  induction txs with
  | nil => intro start i tx h; simp at h
  | cons t rest ih =>
    intro start i tx h
    cases i with
    | zero =>
      simp only [List.get?_cons_zero, Option.some.injEq] at h
      subst h
      simp [categorizeBatchGo, List.lookup]
    | succ i =>
      simp only [List.get?_cons_succ] at h
      have hne : (start + (i + 1) == start) = false := by
        simp only [beq_eq_false_iff_ne, ne_eq]
        omega
      unfold categorizeBatchGo
      rw [List.lookup]
      rw [hne]
      have := ih (start + 1) i tx h
      rw [show start + 1 + i = start + (i + 1) by omega] at this
      exact this

/-- The single-row rule loop returns the first matching rule of the
snapshot (reference characterization used by the precedence claim). -/
theorem matchRulesLoop_find (compile : RegexCompiler) (nd nc : Str) :
    ∀ rules, matchRulesLoop compile nd nc rules =
      (rules.find? (Categorization.ruleMatches compile nd nc)).map ruleResult
  | [] => rfl
  | rule :: rest => by
    rw [List.find?_cons]
    unfold matchRulesLoop
    have hsplit : Categorization.ruleMatches compile nd nc rule =
      ((match rule.channel with
        | some ch => includesL nc (jsLower ch)
        | none => true) &&
       ruleSwitchSingle compile nd (jsLower rule.pattern) rule.matchType) := rfl
    cases hch : rule.channel with
    | none =>
      simp only [hch, Bool.true_and] at hsplit
      cases hm : ruleSwitchSingle compile nd (jsLower rule.pattern) rule.matchType with
      | true => simp [hch, hm, hsplit, hm.symm ▸ hsplit]
      | false => simp [hch, hm, hsplit, matchRulesLoop_find compile nd nc rest]
    | some ch =>
      simp only [hch] at hsplit
      cases hc : includesL nc (jsLower ch) with
      | false =>
        simp only [hc, Bool.false_and] at hsplit
        simp [hch, hc, hsplit, matchRulesLoop_find compile nd nc rest]
      | true =>
        simp only [hc, Bool.true_and] at hsplit
        cases hm : ruleSwitchSingle compile nd (jsLower rule.pattern) rule.matchType with
        | true => simp [hch, hc, hm, hsplit]
        | false => simp [hch, hc, hm, hsplit, matchRulesLoop_find compile nd nc rest]

/-- In a priority-descending snapshot, the first matching rule has
maximal priority among all matching rules. -/
theorem find_priority_max (p : Rule → Bool) :
    ∀ rules : List Rule,
      List.Pairwise (fun a b => b.priority ≤ a.priority) rules →
      ∀ r, rules.find? p = some r →
      ∀ r' ∈ rules, p r' = true → r'.priority ≤ r.priority := by
  intro rules
  induction rules with
  | nil => intro _ r h; simp at h
  | cons x rest ih =>
    intro hpw r hfind r' hr' hp
    rw [List.pairwise_cons] at hpw
    rw [List.find?_cons] at hfind
    cases hx : p x with
    | true =>
      rw [hx] at hfind
      cases hfind
      rcases List.mem_cons.mp hr' with rfl | hmem
      · exact le_refl _
      · exact hpw.1 _ hmem
    | false =>
      rw [hx] at hfind
      rcases List.mem_cons.mp hr' with rfl | hmem
      · rw [hp] at hx; cases hx
      · exact ih hpw.2 r hfind r' hmem hp

end Categorization

/-- A merge sort under the descending-timestamp comparison yields a
descending-sorted list. -/
theorem sortedNewestFirst_mergeSort
    (le : ParsedTransaction → ParsedTransaction → Bool)
    (hle : ∀ a b, le a b = decide (b.dateTime.getTime ≤ a.dateTime.getTime))
    (l : List ParsedTransaction) : SortedNewestFirst (l.mergeSort le) := by
  have htrans : ∀ a b c : ParsedTransaction,
      le a b = true → le b c = true → le a c = true := by
    intro a b c hab hbc
    rw [hle] at *
    simp only [decide_eq_true_eq] at *
    omega
  have htotal : ∀ a b : ParsedTransaction, (le a b || le b a) = true := by
    intro a b
    rw [hle, hle]
    simp only [Bool.or_eq_true, decide_eq_true_eq]
    omega
  have h := List.sorted_mergeSort htrans htotal l
  exact h.imp (fun hab => by
    rw [hle] at hab
    simpa using hab)

namespace CsvParser

/-- A KBank CSV row that parses carries a strictly positive amount (the
`amount <= 0` rejection gate). -/
theorem parseKBankCsvRow_amount_pos {line : Str} {parsed : ParsedRow}
    (h : parseKBankCsvRow line = some parsed) : 0 < parsed.amount := by
  unfold parseKBankCsvRow at h
  dsimp only at h
  repeat' split at h
  all_goals simp_all
  all_goals subst h
  all_goals exact DecNum.lt_of_not_le (by assumption)

/-- An SCB CSV row that parses carries a strictly positive amount. -/
theorem parseSCBCsvRow_amount_pos {line : Str} {parsed : ParsedRow}
    (h : parseSCBCsvRow line = some parsed) : 0 < parsed.amount := by
  unfold parseSCBCsvRow at h
  dsimp only at h
  repeat' split at h
  all_goals simp_all
  all_goals subst h
  all_goals exact DecNum.lt_of_not_le (by assumption)

end CsvParser

namespace CsvParser

/-- Row-loop invariant of `parseCsvStatement` for one bank's row
parser: the filtered-out counter equals the number of inflow-classified
parsed rows, and every collected transaction comes from a parsed,
non-inflow row of positive amount. -/
theorem parseCsvRowsWith_spec
    (rowParse : Str → Option ParsedRow) (bank : Bank)
    (hbank : ∀ line, (match bank with
      | Bank.kbank => parseKBankCsvRow line
      | Bank.scb => parseSCBCsvRow line) = rowParse line)
    (hpos : ∀ line parsed, rowParse line = some parsed → 0 < parsed.amount) :
    ∀ lines : List Str,
      (parseCsvRows bank lines).2.2.1 = csvInflowCount bank lines ∧
      ∀ tx ∈ (parseCsvRows bank lines).1, ∃ parsed : ParsedRow,
        tx = mkTransaction parsed ∧ rowIsInflow parsed = false ∧
        0 < parsed.amount := by
  intro lines
  induction lines with
  | nil =>
    refine ⟨rfl, ?_⟩
    intro tx h
    simp [parseCsvRows] at h
  | cons l rest ih =>
    rcases hpr : parseCsvRows bank rest with ⟨txs, raw, filt, acct⟩
    rw [hpr] at ih
    simp only at ih
    unfold parseCsvRows csvInflowCount
    unfold csvInflowCount at ih
    rw [List.countP_cons, hpr]
    dsimp only
    by_cases hempty : (jsTrim l).isEmpty = true
    · have hpred : csvParsedRow bank l = none := by
        unfold csvParsedRow
        rw [if_pos hempty]
      rw [if_pos hempty, hpred]
      exact ⟨by simpa using ih.1, ih.2⟩
    · have hline : csvParsedRow bank l = rowParse (jsTrim l) := by
        unfold csvParsedRow
        rw [if_neg hempty]
        exact hbank (jsTrim l)
      rw [if_neg hempty, hbank (jsTrim l), hline]
      cases hrow : rowParse (jsTrim l) with
      | none =>
        refine ⟨?_, ?_⟩
        · simpa using ih.1
        · simpa using ih.2
      | some parsed =>
        cases hin : rowIsInflow parsed with
        | true =>
          simp only [hin]
          refine ⟨?_, ?_⟩
          · simpa using ih.1
          · simpa using ih.2
        | false =>
          simp only [hin]
          refine ⟨?_, ?_⟩
          · simpa using ih.1
          · intro tx htx
            have htx' : tx ∈ mkTransaction parsed :: txs := by
              simpa using htx
            rcases List.mem_cons.mp htx' with rfl | hmem
            · exact ⟨parsed, rfl, hin, hpos _ _ hrow⟩
            · exact ih.2 tx hmem

/-- Row-loop invariant of `parseCsvStatement` (both banks). -/
theorem parseCsvRows_spec (bank : Bank) :
    ∀ lines : List Str,
      (parseCsvRows bank lines).2.2.1 = csvInflowCount bank lines ∧
      ∀ tx ∈ (parseCsvRows bank lines).1, ∃ parsed : ParsedRow,
        tx = mkTransaction parsed ∧ rowIsInflow parsed = false ∧
        0 < parsed.amount := by
  cases bank with
  | kbank =>
    exact parseCsvRowsWith_spec parseKBankCsvRow Bank.kbank (fun _ => rfl)
      (fun _ _ h => parseKBankCsvRow_amount_pos h)
  | scb =>
    exact parseCsvRowsWith_spec parseSCBCsvRow Bank.scb (fun _ => rfl)
      (fun _ _ h => parseSCBCsvRow_amount_pos h)

end CsvParser

namespace KBankParser

/-- The pdf-parse variant reports `filteredOutCount = 0` on every input
(every branch of the result literally carries zero). -/
theorem parseKBankStatementFromText_filteredOutCount (text : Str) :
    (parseKBankStatementFromText text).filteredOutCount = 0 := by
  unfold parseKBankStatementFromText
  dsimp only
  repeat' split
  all_goals rfl

/-- A line accepted as an expense carries a strictly positive amount
(the final `transaction.amount > 0` check). -/
theorem isExpenseTransaction_amount_pos {line : Str}
    {transaction : ParsedTransaction}
    (h : isExpenseTransaction line transaction = true) :
    0 < transaction.amount := by
  unfold isExpenseTransaction at h
  repeat' split at h
  all_goals simp_all

/-- Every transaction the pdf-parse line loop emits has positive
amount. -/
theorem parseStatementGo_amount_pos :
    ∀ (lines : List Str) (currentDate currentTime : Option Str),
      ∀ tx ∈ parseStatementGo currentDate currentTime lines, 0 < tx.amount := by
  intro lines
  induction lines with
  | nil => intro _ _ tx h; simp [parseStatementGo] at h
  | cons line rest ih =>
    intro currentDate currentTime tx h
    unfold parseStatementGo at h
    dsimp only at h
    repeat' split at h
    all_goals
      first
        | exact ih _ _ tx h
        | (rcases List.mem_cons.mp h with rfl | hmem
           · exact isExpenseTransaction_amount_pos (by assumption)
           · exact ih _ _ tx hmem)

end KBankParser

/-- Dividing a nonnegative decimal by a power of ten keeps it
nonnegative. -/
theorem DecNum.div_pow10_nonneg {a : DecNum} (k : Nat) (h : 0 ≤ a) :
    0 ≤ a.div (decPow10 k) := by
  rw [DecNum.zero_le_iff] at h ⊢
  simp only [DecNum.div, decPow10]
  split
  · exact mul_nonneg h (Int.natCast_nonneg 1)
  · next hc => exact absurd (by positivity) hc

/-- Multiplying a nonnegative decimal by a power of ten keeps it
nonnegative. -/
theorem DecNum.mul_pow10_nonneg {a : DecNum} (k : Nat) (h : 0 ≤ a) :
    0 ≤ a.mul (decPow10 k) := by
  rw [DecNum.zero_le_iff] at h ⊢
  show 0 ≤ a.num * (10 : Int) ^ k
  exact mul_nonneg h (by positivity)

/-- The sum of two nonnegative decimals is nonnegative. -/
theorem DecNum.add_nonneg {a b : DecNum} (ha : 0 ≤ a) (hb : 0 ≤ b) :
    0 ≤ a.add b := by
  rw [DecNum.zero_le_iff] at ha hb ⊢
  have h1 : 0 ≤ a.num * (b.den : Int) := mul_nonneg ha (by positivity)
  have h2 : 0 ≤ b.num * (a.den : Int) := mul_nonneg hb (by positivity)
  show 0 ≤ a.num * (b.den : Int) + b.num * (a.den : Int)
  omega

/-- A decimal built from a natural numerator is nonnegative. -/
theorem DecNum.ofNatNum_nonneg (n d : Nat) :
    0 ≤ (⟨(n : Int), d⟩ : DecNum) :=
  (DecNum.zero_le_iff _).mpr (Int.natCast_nonneg _)

/-- An exponent suffix preserves nonnegativity. -/
theorem applyExp_nonneg {mag : DecNum} (rest : Str) (h : 0 ≤ mag) :
    0 ≤ applyExp mag rest := by
  unfold applyExp
  dsimp only
  repeat' split
  all_goals
    first
      | exact h
      | exact DecNum.div_pow10_nonneg _ h
      | exact DecNum.mul_pow10_nonneg _ h

/-- A sign-consuming parse reports a negative sign only when the string
starts with a minus. -/
theorem parseSign_neg {t : Str} (h : (parseSign t).1 = true) : '-' ∈ t := by
  unfold parseSign at h
  repeat' split at h
  all_goals simp_all

set_option maxHeartbeats 1000000 in
/-- A parsed magnitude is nonnegative. -/
theorem parseMag_nonneg {t : Str} {q : DecNum} (h : parseMag t = some q) :
    0 ≤ q := by
  unfold parseMag at h
  dsimp only at h
  repeat' split at h
  all_goals
    first
      | exact Option.noConfusion h
      | (rw [Option.some.injEq] at h
         subst h
         first
           | (refine applyExp_nonneg _ ?_
              exact DecNum.add_nonneg (DecNum.ofNatNum_nonneg _ _)
                (DecNum.div_pow10_nonneg _ (DecNum.ofNatNum_nonneg _ _)))
           | exact DecNum.add_nonneg (DecNum.ofNatNum_nonneg _ _)
               (DecNum.div_pow10_nonneg _ (DecNum.ofNatNum_nonneg _ _)))

/-- A float parsed from a string without a minus sign is nonnegative. -/
theorem parseFloatJS_nonneg {s : Str} (hminus : '-' ∉ s) {q : DecNum}
    (hq : parseFloatJS s = some q) : 0 ≤ q := by
  have hd : '-' ∉ s.dropWhile isJsWs := fun hmem =>
    hminus ((List.dropWhile_sublist isJsWs).mem hmem)
  unfold parseFloatJS at hq
  dsimp only at hq
  cases hneg : (parseSign (s.dropWhile isJsWs)).1 with
  | true => exact absurd (parseSign_neg hneg) hd
  | false =>
    rw [hneg] at hq
    simp only [Bool.false_eq_true, if_false, Option.map_eq_some'] at hq
    rcases hq with ⟨mag, hmag, rfl⟩
    exact parseMag_nonneg hmag

namespace PdfjsParser

/-- The amount group captured by `amountSeg` contains no minus sign. -/
theorem amountSeg_no_minus {s : Str} {g : Str × Str}
    (h : amountSeg s = some g) : '-' ∉ g.1 := by
  unfold amountSeg takeDigitsComma at h
  dsimp only at h
  repeat' split at h
  all_goals
    first
      | exact Option.noConfusion h
      | (rw [Option.some.injEq] at h
         subst h
         intro hmem
         simp only at hmem
         first
           | (rcases List.mem_append.mp hmem with hmem1 | hmem1
              · have := List.mem_takeWhile_imp hmem1
                simp [isDigitCh] at this
              · rcases List.mem_cons.mp hmem1 with heq | hmem2
                · exact absurd heq (by decide)
                · have := List.mem_takeWhile_imp hmem2
                  simp [isDigitCh] at this)
           | (have hw := List.mem_takeWhile_imp hmem
              simp [isDigitCh] at hw))

/-- The amount group captured by the transaction pattern contains no
minus sign. -/
theorem tryTxAt_amount_no_minus {s : Str} {g : Str × Str × Str × Str}
    (h : tryTxAt s = some g) : '-' ∉ g.2.2.1 := by
  unfold tryTxAt at h
  dsimp only at h
  repeat' split at h
  all_goals
    first
      | exact Option.noConfusion h
      | (rw [Option.some.injEq] at h
         subst h
         intro hmem
         simp only at hmem
         exact amountSeg_no_minus (by assumption) hmem)

/-- The amount group of the leftmost transaction-pattern match contains
no minus sign. -/
theorem matchTx_amount_no_minus :
    ∀ {line : Str} {g : Str × Str × Str × Str},
      matchTx line = some g → '-' ∉ g.2.2.1 := by
  intro line
  induction line with
  | nil => intro g h; exact Option.noConfusion h
  | cons c cs ih =>
    intro g h
    unfold matchTx at h
    split at h
    · next hat =>
      rw [Option.some.injEq] at h
      subst h
      exact tryTxAt_amount_no_minus hat
    · exact ih h

end PdfjsParser

namespace PdfjsParser

/-- Line-loop invariant of the pdfjs `parseTransactions`: the
filtered-out counter equals the number of inflow-classified rows, and
every collected transaction has a nonnegative amount and a description
cut from a remainder that carries no inflow keyword. -/
theorem parseTransactionsGo_spec :
    ∀ lines : List Str,
      (parseTransactionsGo lines).2.2 = lines.countP pdfjsLineInflow ∧
      ∀ tx ∈ (parseTransactionsGo lines).1,
        0 ≤ tx.amount ∧
        ∃ restStr : Str, tx.descriptionRaw = jsTrim (restStr.take 200) ∧
          inflowKeywordIn restStr = false := by
  intro lines
  induction lines with
  | nil =>
    refine ⟨rfl, ?_⟩
    intro tx h
    simp [parseTransactionsGo] at h
  | cons l rest ih =>
    rcases hpr : parseTransactionsGo rest with ⟨txs, raw, filt⟩
    rw [hpr] at ih
    simp only at ih
    unfold parseTransactionsGo
    rw [List.countP_cons, hpr]
    dsimp only
    have hpred : pdfjsLineInflow l =
        (match matchTx (jsTrim l) with
         | some (_, _, amountStr, restStr) =>
           (parseFloatJS (amountStr.filter (fun c => !(c == ',')))).isSome &&
             inflowKeywordIn restStr
         | none => false) := rfl
    by_cases hempty : (jsTrim l).isEmpty = true
    · have hnil : jsTrim l = [] := by simpa using hempty
      rw [if_pos hempty, hpred, hnil]
      exact ⟨by simpa [matchTx] using ih.1, ih.2⟩
    · rw [if_neg hempty, hpred]
      cases hm : matchTx (jsTrim l) with
      | none => exact ⟨by simpa using ih.1, ih.2⟩
      | some g =>
        rcases g with ⟨dateStr, timeStr, amountStr, restStr⟩
        dsimp only
        cases hamt : parseFloatJS (amountStr.filter (fun c => !(c == ','))) with
        | none => exact ⟨by simpa using ih.1, ih.2⟩
        | some amount =>
          have hinfl : INFLOW_PATTERNS.any
              (fun pattern => includesL (jsLower restStr) (jsLower pattern)) =
              inflowKeywordIn restStr := rfl
          rw [hinfl]
          cases hin : inflowKeywordIn restStr with
          | true =>
            simp only [hin]
            exact ⟨by simpa using ih.1, ih.2⟩
          | false =>
            simp only [hin]
            cases hdate : parseTransactionDate dateStr timeStr with
            | none => exact ⟨by simpa using ih.1, ih.2⟩
            | some dateTime =>
              refine ⟨by simpa using ih.1, ?_⟩
              intro tx htx
              rcases List.mem_cons.mp htx with rfl | hmem
              · refine ⟨?_, restStr, ?_, hin⟩
                · have hnm : '-' ∉ amountStr.filter (fun c => !(c == ',')) :=
                    fun hmem =>
                      matchTx_amount_no_minus hm (List.mem_of_mem_filter hmem)
                  exact parseFloatJS_nonneg hnm hamt
                · rfl
              · exact ih.2 tx hmem

end PdfjsParser

namespace CsvParser

/-- Inside quotes, every character (commas included) is appended to the
current field until the closing quote; the quote characters themselves
are dropped. -/
theorem csvFieldScan_quoted {mid : Str} (h : '"' ∉ mid) :
    ∀ rest : Str, csvFieldScan true (mid ++ '"' :: ',' :: rest) =
      mid :: csvFieldScan false rest := by
  induction mid with
  | nil => intro rest; rfl
  | cons c cs ih =>
    intro rest
    have hc : (c == '"') = false := by
      simp only [beq_eq_false_iff_ne, ne_eq]
      exact fun hcq => h (by simp [hcq])
    have hcs : '"' ∉ cs := fun hm => h (List.mem_cons_of_mem c hm)
    simp [List.cons_append, csvFieldScan, hc, ih hcs]

/-- Leading-quote stripping is the identity on quote-free strings. -/
theorem stripLeadQuote_self {mid : Str} (h : '"' ∉ mid) :
    stripLeadQuote mid = mid := by
  unfold stripLeadQuote
  split
  · exact absurd (List.mem_cons_self _ _) h
  · rfl

/-- Edge-quote stripping is the identity on quote-free strings. -/
theorem stripEdgeQuotes_self {mid : Str} (h : '"' ∉ mid) :
    stripEdgeQuotes mid = mid := by
  unfold stripEdgeQuotes
  dsimp only
  rw [stripLeadQuote_self h]
  split
  · next r heq =>
    refine absurd (List.mem_reverse.mp ?_) h
    rw [heq]
    exact List.mem_cons_self _ _
  · rfl

/-- A quoted field followed by a comma: the field keeps its literal
content (commas included), the quotes are dropped, and splitting
continues after the comma. -/
theorem parseCsvLine_quoted {mid : Str} (h : '"' ∉ mid) (rest : Str) :
    parseCsvLine ('"' :: mid ++ '"' :: ',' :: rest) =
      jsTrim mid :: parseCsvLine rest := by
  unfold parseCsvLine
  have hstep : csvFieldScan false ('"' :: (mid ++ '"' :: ',' :: rest)) =
      csvFieldScan true (mid ++ '"' :: ',' :: rest) := by
    simp [csvFieldScan]
  have hscan : csvFieldScan false ('"' :: mid ++ '"' :: ',' :: rest) =
      mid :: csvFieldScan false rest := by
    rw [List.cons_append, hstep, csvFieldScan_quoted h rest]
  rw [hscan, List.map_cons, stripEdgeQuotes_self h]

end CsvParser

/-!
Concrete inputs used by counterexamples and witnesses.
-/

/-- Filler line keeping the extracted text above the pdf-parse variant's
100-character minimum without matching any pattern. -/
def kbankFillerLine : Str := List.replicate 120 'X'

/-- A statement text whose transaction rows appear oldest first. -/
def kbankUnsortedText : Str :=
  kbankFillerLine ++
    str "\n01/01/2024 10:00 100.00 PAYMENT AAA\n02/01/2024 11:00 50.00 PAYMENT BBB"

/-- A statement text with one expense row and one inflow (REFUND) row. -/
def kbankInflowText : Str :=
  kbankFillerLine ++
    str "\n01/01/2024 10:00 100.00 PAYMENT AAA\n02/01/2024 11:00 50.00 REFUND BBB"

/-- A pdfjs text whose single matched row carries amount `0.00`. -/
def pdfjsZeroAmountText : Str := str "01/01/2024 10:00 0.00 PAYMENT AAA"

/-- A small CSV statement: header, one expense row, one inflow row. -/
def csvWitnessText : Str :=
  str "Date,Time,Desc,Withdraw,Deposit,Balance\n02/01/2024,10:00,COFFEE,100.00,0.00,900.00\n01/01/2024,09:00,รับโอนเงิน JOHN,0.00,500.00,1000.00"

/-- A statement text whose expense row carries the inflow keyword
`Refund` in mixed case (missed by the case-sensitive `isInflowRow`). -/
def kbankCaseText : Str :=
  kbankFillerLine ++ str "\n01/01/2024 10:00 100.00 PAYMENT Refund CCC"

/-- A regex facility on which every pattern fails to compile (the rules
below use only `CONTAINS`, so it is never consulted). -/
def failCompile : Categorization.RegexCompiler := fun _ => none

/-- Transaction input used by the batch-equivalence witness. -/
def c3Tx : Categorization.TxInput :=
  ⟨none, str "GRAB 7-ELEVEN", str "K PLUS", str "Other"⟩

/-- An enabled `CONTAINS "coffee"` rule, priority 5, created first. -/
def c4RuleOld : Categorization.Rule :=
  ⟨str "r-old", str "coffee", Categorization.MatchType.CONTAINS, none, 5, true,
   1, ⟨str "cat-a", str "Food"⟩⟩

/-- An enabled `CONTAINS "coffee"` rule, priority 5, created second. -/
def c4RuleNew : Categorization.Rule :=
  ⟨str "r-new", str "coffee", Categorization.MatchType.CONTAINS, none, 5, true,
   2, ⟨str "cat-b", str "Drink"⟩⟩

/-- An enabled `CONTAINS "coffee"` rule of higher priority 10. -/
def c4RuleHigh : Categorization.Rule :=
  ⟨str "r-high", str "coffee", Categorization.MatchType.CONTAINS, none, 10,
   true, 1, ⟨str "cat-c", str "Travel"⟩⟩

/-!
Claim theorems.
-/

/-- Claim C6 (counterexample): the claim states that the Buddhist-Era
correction applies exactly for years greater than 2500 on every
date-parsing path, so a `parseThaiDate` token with year 2450 would be
left unchanged; the code's `parseThaiDate` threshold is 2400 (its own
comment says "year > 2400"), so 2450 is corrected to 1907. -/
theorem C6_counterexample :
    parseThaiDate (str "01/01/2450") none =
      Except.ok ⟨1907, 0, 1, 0, 0, 0⟩ ∧ (1907 : Int) ≠ 2450 := by
  constructor
  · rfl
  · decide

/-- Claim C6 (amended): `parseThaiDate` applies the Buddhist-Era
subtraction of 543 exactly for years above 2400, and the CSV parser's
`parseDate` exactly for years above 2500 (for four-digit years); on both
paths a year token 2567 normalizes to 2024 and a year token 2024 is
unchanged, as witnessed at the boundaries 2400/2401 and 2500/2501. -/
theorem C6_amended :
    (∀ (s : Str) (d m y : Nat), matchDMY4 (jsTrim s) = some (d, m, y) →
      parseThaiDate s none =
        Except.ok ⟨if 2400 < y then (y : Int) - 543 else (y : Int),
          (m : Int) - 1, (d : Int), 0, 0, 0⟩) ∧
    (∀ (dateStr timeStr : Str) (d m y : Nat),
      CsvParser.matchDMY24 dateStr = some (d, m, y) → 100 ≤ y →
      CsvParser.parseDate dateStr timeStr =
        some ⟨if 2500 < y then (y : Int) - 543 else (y : Int), (m : Int) - 1,
          (d : Int),
          parseIntOr0 ((splitOnCh ':' timeStr).getD 0 []),
          parseIntOr0 ((splitOnCh ':' timeStr).getD 1 []), 0⟩) ∧
    parseThaiDate (str "01/01/2567") none = Except.ok ⟨2024, 0, 1, 0, 0, 0⟩ ∧
    parseThaiDate (str "01/01/2024") none = Except.ok ⟨2024, 0, 1, 0, 0, 0⟩ ∧
    parseThaiDate (str "01/01/2400") none = Except.ok ⟨2400, 0, 1, 0, 0, 0⟩ ∧
    parseThaiDate (str "01/01/2401") none = Except.ok ⟨1858, 0, 1, 0, 0, 0⟩ ∧
    CsvParser.parseDate (str "01/01/2567") (str "00:00") =
      some ⟨2024, 0, 1, 0, 0, 0⟩ ∧
    CsvParser.parseDate (str "01/01/2024") (str "00:00") =
      some ⟨2024, 0, 1, 0, 0, 0⟩ ∧
    CsvParser.parseDate (str "01/01/2500") (str "00:00") =
      some ⟨2500, 0, 1, 0, 0, 0⟩ ∧
    CsvParser.parseDate (str "01/01/2501") (str "00:00") =
      some ⟨1958, 0, 1, 0, 0, 0⟩ := by
  refine ⟨?_, ?_, by rfl, by rfl, by rfl, by rfl, by rfl, by rfl, by rfl,
    by rfl⟩
  · intro s d m y h
    unfold parseThaiDate
    dsimp only
    rw [h]
    rfl
  · intro dateStr timeStr d m y h hy
    unfold CsvParser.parseDate
    rw [h]
    dsimp only
    have h100 : ¬ y < 100 := by omega
    rw [if_neg h100]
    by_cases h25 : 2500 < y
    · rw [if_pos (by exact_mod_cast h25), if_pos h25]
    · rw [if_neg (by exact_mod_cast h25), if_neg h25]

/-- Claim C6 (amended) witness: both universal parts applied at year
2567 with concrete date strings. -/
theorem C6_amended_witness :
    parseThaiDate (str "31/12/2567") none =
      Except.ok ⟨2024, 11, 31, 0, 0, 0⟩ ∧
    CsvParser.parseDate (str "31/12/2567") (str "23:59") =
      some ⟨2024, 11, 31, 23, 59, 0⟩ := by
  constructor
  · have := C6_amended.1 (str "31/12/2567") 31 12 2567 (by decide)
    simpa using this
  · have := C6_amended.2.1 (str "31/12/2567") (str "23:59") 31 12 2567
      (by decide) (by decide)
    simpa using this

/-- Claim C7: a rule with match mode REGEX whose pattern fails to
compile (the regex facility returns `none`, modelling the thrown
`SyntaxError` that the code catches) never matches: categorization of a
snapshot headed by such a rule equals categorization without it, so the
decision falls through to the remaining rules, then hints, then NONE.
Totality of the embedding models "never raises". -/
theorem C7_invalid_regex_skipped (compile : Categorization.RegexCompiler)
    (rule : Categorization.Rule) (rest : List Categorization.Rule)
    (categories : List Categorization.Category)
    (description channel itemType : Str)
    (hmt : rule.matchType = Categorization.MatchType.REGEX)
    (hcompile : compile (jsLower rule.pattern) = none) :
    Categorization.categorizeTransaction compile (rule :: rest) categories
        description channel itemType =
      Categorization.categorizeTransaction compile rest categories
        description channel itemType := by
  unfold Categorization.categorizeTransaction Categorization.matchUserRules
  have hloop : ∀ nd nc, Categorization.matchRulesLoop compile nd nc
      (rule :: rest) = Categorization.matchRulesLoop compile nd nc rest := by
    intro nd nc
    conv_lhs => rw [Categorization.matchRulesLoop]
    split
    · rfl
    · rw [if_neg]
      rw [hmt]
      unfold Categorization.ruleSwitchSingle
      rw [hcompile]
      simp
  rw [hloop]

/-- Claim C7 witness: a concrete REGEX rule with a pattern the compiler
rejects is skipped, and categorization of the one-rule snapshot yields
the NONE result. -/
theorem C7_invalid_regex_skipped_witness :
    Categorization.categorizeTransaction (fun _ => none)
        [⟨str "r1", str "grab(", Categorization.MatchType.REGEX, none, 10,
          true, 1, ⟨str "c1", str "Travel"⟩⟩] []
        (str "GRAB 7-ELEVEN") (str "K PLUS") (str "Other") =
      Categorization.noneResult := by
  rw [C7_invalid_regex_skipped (fun _ => none) _ [] [] _ _ _ rfl rfl]
  rfl

/-- Claim C9 (counterexample): the claim states a doubled quote inside a
quoted field yields one literal quote character, so `"a""b",c` would
split to `a"b` and `c`; the splitter drops every quote character (the
toggle branch never emits it), producing `ab`. -/
theorem C9_counterexample :
    CsvParser.parseCsvLine (str "\"a\"\"b\",c") = [str "ab", str "c"] ∧
    str "ab" ≠ str "a\"b" := by
  constructor
  · rfl
  · decide

/-- Claim C9 (amended): the splitter is comma-quote-aware — a comma
inside a quoted field does not split the field and the field keeps its
literal content — but quote characters are removed entirely: a doubled
quote contributes no character (not a literal quote). -/
theorem C9_amended :
    (∀ (mid rest : Str), '"' ∉ mid →
      CsvParser.parseCsvLine ('"' :: mid ++ '"' :: ',' :: rest) =
        jsTrim mid :: CsvParser.parseCsvLine rest) ∧
    CsvParser.parseCsvLine (str "\"a,b\",c") = [str "a,b", str "c"] ∧
    CsvParser.parseCsvLine (str "\"a\"\"b\",c") = [str "ab", str "c"] := by
  exact ⟨fun mid rest h => CsvParser.parseCsvLine_quoted h rest, rfl, rfl⟩

/-- Claim C9 (amended) witness: the universal part applied to the field
`a,b` (with an embedded comma) before the tail `c`. -/
theorem C9_amended_witness :
    CsvParser.parseCsvLine ('"' :: str "a,b" ++ '"' :: ',' :: str "c") =
      jsTrim (str "a,b") :: CsvParser.parseCsvLine (str "c") :=
  C9_amended.1 (str "a,b") (str "c") (by decide)

/-- Claim C10: `parseCsvStatement` is total in the embedding (it is a
Lean function, so every input yields a structured `ParseResult` and no
exception escapes; the source's `catch` block, which would produce a
`success:false` result with a nonempty message and zeroed fields, is
unreachable because every step of the body is total).  Every result
either succeeds with no error, or fails carrying a nonempty error
message, no transactions, and zero row counts. -/
theorem C10_total_shape (fileContent : Str) (bank : CsvParser.Bank) :
    (CsvParser.parseCsvStatement fileContent bank).success = true ∧
      (CsvParser.parseCsvStatement fileContent bank).error = none ∨
    (CsvParser.parseCsvStatement fileContent bank).success = false ∧
      (CsvParser.parseCsvStatement fileContent bank).transactions = [] ∧
      (CsvParser.parseCsvStatement fileContent bank).rawRowCount = 0 ∧
      (CsvParser.parseCsvStatement fileContent bank).filteredOutCount = 0 ∧
      ∃ msg : Str, (CsvParser.parseCsvStatement fileContent bank).error =
        some msg ∧ msg ≠ [] := by
  unfold CsvParser.parseCsvStatement
  dsimp only
  split
  · exact Or.inr ⟨rfl, rfl, rfl, rfl, str "CSV file appears to be empty or invalid",
      rfl, by decide⟩
  · exact Or.inl ⟨rfl, rfl⟩

/-- A transaction list whose timestamps map to an ascending pair is not
sorted newest-first. -/
theorem not_sortedNewestFirst_of_ascending {l : List ParsedTransaction}
    {x y : Int} (hmap : l.map (fun t => t.dateTime.getTime) = [x, y])
    (hxy : x < y) : ¬ SortedNewestFirst l := by
  intro hs
  rcases l with _ | ⟨a, _ | ⟨b, _ | ⟨c, _⟩⟩⟩ <;> simp at hmap
  rcases hmap with ⟨hx, hy⟩
  unfold SortedNewestFirst at hs
  rw [List.pairwise_cons] at hs
  have := hs.1 b (List.mem_cons_self _ _)
  omega

set_option maxRecDepth 100000 in
/-- Claim C1 (counterexample): the pdf-parse variant
(`kbank-parser.ts`) has no sorting step, so a statement whose rows
appear oldest first is returned oldest first — the claimed
newest-first post-condition fails on that parse path. -/
theorem C1_counterexample :
    (KBankParser.parseKBankStatementFromText kbankUnsortedText).success = true ∧
    (KBankParser.parseKBankStatementFromText kbankUnsortedText).transactions.map
        (fun t => t.dateTime.getTime) = [1704103200000, 1704193200000] ∧
    ¬ SortedNewestFirst
        (KBankParser.parseKBankStatementFromText kbankUnsortedText).transactions := by
  refine ⟨by rfl, by rfl, ?_⟩
  exact not_sortedNewestFirst_of_ascending (by rfl) (by decide)

/-- Claim C1 (amended): the CSV parser and the pdfjs-dist PDF variant
sort their output newest first on every input; the pdf-parse variant
(`parseStatementText` of `kbank-parser.ts`) emits transactions in
document order with no sort (refuted by the counterexample). -/
theorem C1_amended :
    (∀ (fileContent : Str) (bank : CsvParser.Bank),
      SortedNewestFirst
        (CsvParser.parseCsvStatement fileContent bank).transactions) ∧
    (∀ text : Str,
      SortedNewestFirst (PdfjsParser.parseTransactions text).1) := by
  constructor
  · intro fileContent bank
    unfold CsvParser.parseCsvStatement
    dsimp only
    split
    · exact List.Pairwise.nil
    · exact sortedNewestFirst_mergeSort CsvParser.newestFirst
        (fun _ _ => rfl) _
  · intro text
    unfold PdfjsParser.parseTransactions
    exact sortedNewestFirst_mergeSort PdfjsParser.newestFirst
      (fun _ _ => rfl) _

/-- Date and amount used by the fingerprint examples. -/
def fpExampleDate : JSDate := ⟨2024, 0, 1, 10, 0, 0⟩

set_option maxRecDepth 100000 in
/-- Claim C2 (counterexample): the descriptions `a` and `a .` differ
only by inserted whitespace and punctuation (they agree after
lowercasing, punctuation-stripping, whitespace-collapsing and trimming),
yet their fingerprints differ: `normalizeDescription` strips punctuation
only after collapsing whitespace, so the stripped dot leaves a trailing
space (`a` vs `a `) in the hashed string. -/
theorem C2_counterexample :
    specNoiseCanon (str "a") = specNoiseCanon (str "a .") ∧
    generateTransactionFingerprint fpExampleDate 100 (str "K PLUS") (str "a") ≠
      generateTransactionFingerprint fpExampleDate 100 (str "K PLUS")
        (str "a .") := by
  exact ⟨by rfl, by decide⟩

/-- Claim C2 (amended): fingerprints agree for equal
`(dateTime, amount, channel)` whenever the two descriptions agree after
the code's normalization (lowercase, collapse whitespace runs, trim,
then strip out-of-range characters — in that order); in particular
case, whitespace-run and attached-punctuation noise collapse, as in the
concrete pair below. -/
theorem C2_amended :
    (∀ (dateTime : JSDate) (amount : DecNum) (channel d1 d2 : Str),
      normalizeDescription d1 = normalizeDescription d2 →
      generateTransactionFingerprint dateTime amount channel d1 =
        generateTransactionFingerprint dateTime amount channel d2) ∧
    generateTransactionFingerprint fpExampleDate 100 (str "K PLUS")
        (str "COFFEE  SHOP!!") =
      generateTransactionFingerprint fpExampleDate 100 (str "K PLUS")
        (str "coffee shop") := by
  have key : ∀ (dateTime : JSDate) (amount : DecNum) (channel d1 d2 : Str),
      normalizeDescription d1 = normalizeDescription d2 →
      generateTransactionFingerprint dateTime amount channel d1 =
        generateTransactionFingerprint dateTime amount channel d2 := by
    intro dateTime amount channel d1 d2 h
    unfold generateTransactionFingerprint
    rw [h]
  exact ⟨key, key _ _ _ _ _ (by decide)⟩

/-- Claim C2 (amended) witness: the universal part applied to a pair
differing in case and a whitespace run, with the hypothesis discharged
by evaluation. -/
theorem C2_amended_witness :
    normalizeDescription (str "FOO  BAR.") = normalizeDescription (str "foo bar.") ∧
    generateTransactionFingerprint fpExampleDate 50 (str "ATM")
        (str "FOO  BAR.") =
      generateTransactionFingerprint fpExampleDate 50 (str "ATM")
        (str "foo bar.") :=
  ⟨by decide, C2_amended.1 _ _ _ _ _ (by decide)⟩

/-- Claim C3: for every regex facility, rule/category snapshot and
transaction list, the batch `categorizeTransactions` assigns to index
`i` exactly the result the single-row `categorizeTransaction` returns
on that transaction's description, channel and itemType against the
same snapshot. -/
theorem C3_batch_eq_single (compile : Categorization.RegexCompiler)
    (rules : List Categorization.Rule)
    (categories : List Categorization.Category)
    (transactions : List Categorization.TxInput) (i : Nat)
    (tx : Categorization.TxInput) (h : transactions.get? i = some tx) :
    List.lookup i
        (Categorization.categorizeTransactions compile rules categories
          transactions) =
      some (Categorization.categorizeTransaction compile rules categories
        tx.description tx.channel tx.itemType) := by
  have hlk := Categorization.lookup_categorizeBatchGo compile rules categories
    transactions 0 i tx h
  rw [Nat.zero_add] at hlk
  unfold Categorization.categorizeTransactions
  rw [hlk, Categorization.categorizeRow_eq]

/-- Claim C3 witness: the equivalence applied to a singleton batch at
index 0, with the lookup hypothesis discharged by evaluation. -/
theorem C3_batch_eq_single_witness :
    ([c3Tx].get? 0 = some c3Tx) ∧
    List.lookup 0
        (Categorization.categorizeTransactions failCompile [] [] [c3Tx]) =
      some (Categorization.categorizeTransaction failCompile [] []
        c3Tx.description c3Tx.channel c3Tx.itemType) :=
  ⟨rfl, C3_batch_eq_single failCompile [] [] [c3Tx] 0 c3Tx rfl⟩

/-- Claim C4 (counterexample): the categorization query orders the
snapshot by `priority` descending only, with no `createdAt` tiebreak
(the cited `createdAt` ordering is in the rules listing route, not the
engine), so the snapshot `[old, new]` of two equal-priority matching
rules is consistent with the query order; on it the engine returns the
OLDER rule's category, refuting "given equal priority, the more
recently created rule wins". -/
theorem C4_counterexample :
    c4RuleOld.priority = c4RuleNew.priority ∧
    c4RuleOld.createdAt < c4RuleNew.createdAt ∧
    List.Pairwise (fun a b : Categorization.Rule => b.priority ≤ a.priority)
      [c4RuleOld, c4RuleNew] ∧
    Categorization.matchUserRules failCompile [c4RuleOld] (str "COFFEE SHOP")
        (str "K PLUS") = some (Categorization.ruleResult c4RuleOld) ∧
    Categorization.matchUserRules failCompile [c4RuleNew] (str "COFFEE SHOP")
        (str "K PLUS") = some (Categorization.ruleResult c4RuleNew) ∧
    Categorization.matchUserRules failCompile [c4RuleOld, c4RuleNew]
        (str "COFFEE SHOP") (str "K PLUS") =
      some (Categorization.ruleResult c4RuleOld) ∧
    Categorization.ruleResult c4RuleOld ≠
      Categorization.ruleResult c4RuleNew := by
  exact ⟨by decide, by decide, by decide, by decide, by decide, by decide,
    by decide⟩

/-- Claim C4 (amended): on a priority-descending snapshot the engine
returns the first matching rule, and that rule's priority is maximal
among all matching rules of the snapshot — a strictly higher-priority
matching rule always wins regardless of creation order; the equal-
priority `createdAt` tiebreak does not hold (see the counterexample). -/
theorem C4_amended (compile : Categorization.RegexCompiler)
    (rules : List Categorization.Rule) (description channel : Str)
    (hsorted : List.Pairwise
      (fun a b : Categorization.Rule => b.priority ≤ a.priority) rules)
    (r : Categorization.Rule)
    (hfind : rules.find? (Categorization.ruleMatches compile
        (jsLower (normalizeDescription description)) (jsLower channel)) =
      some r) :
    Categorization.matchUserRules compile rules description channel =
      some (Categorization.ruleResult r) ∧
    ∀ r' ∈ rules,
      Categorization.ruleMatches compile
          (jsLower (normalizeDescription description)) (jsLower channel) r' =
        true →
      r'.priority ≤ r.priority := by
  constructor
  · unfold Categorization.matchUserRules
    rw [Categorization.matchRulesLoop_find, hfind]
    rfl
  · exact Categorization.find_priority_max _ rules hsorted r hfind

/-- Claim C4 (amended) witness: a two-rule priority-sorted snapshot on
which the higher-priority rule wins, hypotheses discharged by
evaluation. -/
theorem C4_amended_witness :
    List.Pairwise (fun a b : Categorization.Rule => b.priority ≤ a.priority)
      [c4RuleHigh, c4RuleOld] ∧
    [c4RuleHigh, c4RuleOld].find? (Categorization.ruleMatches failCompile
        (jsLower (normalizeDescription (str "COFFEE SHOP")))
        (jsLower (str "K PLUS"))) = some c4RuleHigh ∧
    (Categorization.matchUserRules failCompile [c4RuleHigh, c4RuleOld]
        (str "COFFEE SHOP") (str "K PLUS") =
      some (Categorization.ruleResult c4RuleHigh) ∧
     ∀ r' ∈ [c4RuleHigh, c4RuleOld],
       Categorization.ruleMatches failCompile
           (jsLower (normalizeDescription (str "COFFEE SHOP")))
           (jsLower (str "K PLUS")) r' = true →
       r'.priority ≤ c4RuleHigh.priority) :=
  ⟨by decide, by decide,
   C4_amended failCompile [c4RuleHigh, c4RuleOld] (str "COFFEE SHOP")
     (str "K PLUS") (by decide) c4RuleHigh (by decide)⟩

set_option maxRecDepth 100000 in
/-- Claim C5 (counterexample): on the pdf-parse path
(`kbank-parser.ts`) the claim fails twice.  A statement with one
expense row and one recognized inflow (`REFUND`) row drops the inflow
row but reports `filteredOutCount = 0` (the wrapper hardcodes it), not
1.  And `isInflowRow` matches case-sensitively, so a row carrying the
keyword as `Refund` is not excluded: it appears in the returned
transactions with an inflow keyword case-insensitively contained in its
description. -/
theorem C5_counterexample :
    KBankParser.isInflowRow (str "02/01/2024 11:00 50.00 REFUND BBB") =
      true ∧
    (KBankParser.parseKBankStatementFromText kbankInflowText).success =
      true ∧
    (KBankParser.parseKBankStatementFromText
      kbankInflowText).transactions.length = 1 ∧
    (KBankParser.parseKBankStatementFromText
      kbankInflowText).filteredOutCount = 0 ∧
    (KBankParser.parseKBankStatementFromText kbankCaseText).success = true ∧
    ((KBankParser.parseKBankStatementFromText kbankCaseText).transactions.any
      (fun t => inflowKeywordIn t.descriptionRaw)) = true := by
  exact ⟨rfl, rfl, rfl, rfl, rfl, rfl⟩

/-- Claim C5 (amended): on the CSV path and on the pdfjs path the
exclusion holds — the filtered-out counter equals the number of
inflow-classified rows, and every returned transaction comes from a
non-inflow row (CSV) or from a remainder with no inflow keyword
(pdfjs); the pdf-parse path violates the claim (see the
counterexample). -/
theorem C5_amended :
    (∀ (fileContent : Str) (bank : CsvParser.Bank),
      (CsvParser.parseCsvStatement fileContent bank).filteredOutCount =
        csvInflowCount bank (csvDataLines fileContent) ∧
      ∀ tx ∈ (CsvParser.parseCsvStatement fileContent bank).transactions,
        ∃ parsed : CsvParser.ParsedRow,
          tx = CsvParser.mkTransaction parsed ∧
          CsvParser.rowIsInflow parsed = false) ∧
    (∀ text : Str,
      (PdfjsParser.parseTransactions text).2.2 = pdfjsInflowCount text ∧
      ∀ tx ∈ (PdfjsParser.parseTransactions text).1,
        ∃ restStr : Str, tx.descriptionRaw = jsTrim (restStr.take 200) ∧
          inflowKeywordIn restStr = false) := by
  constructor
  · intro fileContent bank
    unfold CsvParser.parseCsvStatement
    dsimp only
    split
    · next hlt =>
      refine ⟨?_, ?_⟩
      · show 0 = csvInflowCount bank (csvDataLines fileContent)
        have hdl : csvDataLines fileContent = [] := by
          unfold csvDataLines
          exact List.drop_eq_nil_of_le (by omega)
        rw [hdl]
        rfl
      · intro tx htx
        simp at htx
    · obtain ⟨h1, h2⟩ := CsvParser.parseCsvRows_spec bank
        (((splitLinesCrLf fileContent).filter
          (fun line => !(jsTrim line).isEmpty)).drop 1)
      refine ⟨h1, ?_⟩
      intro tx htx
      obtain ⟨parsed, hp1, hp2, _⟩ := h2 tx (List.mem_mergeSort.mp htx)
      exact ⟨parsed, hp1, hp2⟩
  · intro text
    obtain ⟨h1, h2⟩ := PdfjsParser.parseTransactionsGo_spec (splitLinesAny text)
    refine ⟨h1, ?_⟩
    intro tx htx
    exact (h2 tx (List.mem_mergeSort.mp htx)).2

set_option maxRecDepth 100000 in
/-- Claim C8 (counterexample): the pdfjs variant never checks the
parsed amount for positivity (only for `NaN`), so a matched row with
amount `0.00` yields a returned transaction whose amount is zero — not
strictly positive. -/
theorem C8_counterexample :
    ((PdfjsParser.parseTransactions pdfjsZeroAmountText).1.map
      (fun t => (decide (0 < t.amount), t.amount.eqZero))) =
      [(false, true)] := by
  have hm : (PdfjsParser.parseTransactionsGo
      (splitLinesAny pdfjsZeroAmountText)).1.map
      (fun t => (decide (0 < t.amount), t.amount.eqZero)) = [(false, true)] := by
    decide
  show ((PdfjsParser.parseTransactionsGo
      (splitLinesAny pdfjsZeroAmountText)).1.mergeSort
      PdfjsParser.newestFirst).map
      (fun t => (decide (0 < t.amount), t.amount.eqZero)) = [(false, true)]
  rcases hl : (PdfjsParser.parseTransactionsGo
      (splitLinesAny pdfjsZeroAmountText)).1 with _ | ⟨t, _ | ⟨u, rest⟩⟩
  · rw [hl] at hm
    simp at hm
  · rw [hl] at hm
    rw [List.mergeSort_singleton]
    exact hm
  · rw [hl] at hm
    simp at hm

/-- Claim C8 (amended): every transaction returned by the CSV parser
and by the pdf-parse variant has strictly positive amount; on the
pdfjs path only nonnegativity holds (zero amounts pass, see the
counterexample). -/
theorem C8_amended :
    (∀ (fileContent : Str) (bank : CsvParser.Bank),
      ∀ tx ∈ (CsvParser.parseCsvStatement fileContent bank).transactions,
        0 < tx.amount) ∧
    (∀ text : Str,
      ∀ tx ∈ (KBankParser.parseKBankStatementFromText text).transactions,
        0 < tx.amount) ∧
    (∀ text : Str,
      ∀ tx ∈ (PdfjsParser.parseTransactions text).1, 0 ≤ tx.amount) := by
  refine ⟨?_, ?_, ?_⟩
  · intro fileContent bank tx htx
    unfold CsvParser.parseCsvStatement at htx
    dsimp only at htx
    split at htx
    · simp at htx
    · obtain ⟨_, h2⟩ := CsvParser.parseCsvRows_spec bank
        (((splitLinesCrLf fileContent).filter
          (fun line => !(jsTrim line).isEmpty)).drop 1)
      obtain ⟨parsed, hp1, _, hp3⟩ := h2 tx (List.mem_mergeSort.mp htx)
      rw [hp1]
      exact hp3
  · intro text tx htx
    unfold KBankParser.parseKBankStatementFromText at htx
    dsimp only at htx
    repeat' split at htx
    · simp at htx
    · simp at htx
    · exact KBankParser.parseStatementGo_amount_pos _ none none tx htx
  · intro text tx htx
    exact ((PdfjsParser.parseTransactionsGo_spec (splitLinesAny text)).2 tx
      (List.mem_mergeSort.mp htx)).1
